import Mathlib

/-!
Verification of the multi-server MCP tool-client manager of FinGenius
(`src/tool/mcp_client.py`).

The manager keeps three insertion-ordered dictionaries (Python `dict`s):
`sessions : server_id → ClientSession`, `exit_stacks : server_id → AsyncExitStack`
and the inherited `tool_map : tool name → MCPClientTool`, plus the tuple
`tools = tuple(tool_map.values())`.  We embed Python dicts as association
lists with Python's update semantics (updating an existing key keeps its
position, a fresh key is appended), sessions and acquired resources as
abstract `Nat` handles, and every external I/O call (opening a transport,
entering a `ClientSession`, `initialize`, `list_tools`, `call_tool`,
`shutdown`, `aclose`) as an explicit outcome supplied by an environment
record.  An `anyio.move_on_after` deadline expiring while one of the awaits
inside the scope is pending cancels the body and resumes execution *after*
the `with` block without raising; this is modelled by the `timeout` outcome.
-/

namespace FinGenius

/-- Outcome of one awaited external step inside the 30-second
`anyio.move_on_after` scope of a connect call: the step returns a value, it
raises an exception with the given message, or the deadline expires while it
is pending (the cancellation is absorbed by the scope, so control resumes
after the `with` block without an exception). -/
inductive StepOutcome (α : Type) where
  | ok (a : α)
  | raise (msg : String)
  | timeout
  deriving DecidableEq, Repr

/-- Content item of a remote `call_tool` response (`mcp.types`): either a
`TextContent` carrying text or some other content kind. -/
inductive ContentItem where
  | text (s : String)
  | other
  deriving DecidableEq, Repr

/-- Result type returned by tool execution.  Modelled from the spec:
`src/tool/base.py` is not part of the sources; spec section 6 gives the shape
`(success, output, error)` with `output : string` and `error : string|null`. -/
structure ToolResult where
  output : Option String := none
  error : Option String := none
  deriving DecidableEq, Repr

/-- Tool descriptor as reported by a remote server in a `list_tools`
response (`mcp.types.Tool`): name, description and input schema (the schema
is opaque to the manager, kept abstract as a string). -/
structure RemoteTool where
  name : String
  description : String
  inputSchema : String
  deriving DecidableEq, Repr

/-- The client-side tool proxy `MCPClientTool`: a `BaseTool` carrying the
namespaced `name`, `description` and `parameters`, plus the owning session
handle, `server_id` and `original_name`. -/
structure MCPClientTool where
  name : String
  description : String
  parameters : String
  session : Option Nat
  server_id : String
  original_name : String
  deriving DecidableEq, Repr

/-- Execution of `MCPClientTool.execute`: with no session it returns the
connection-unavailable error without touching the network; otherwise the
remote `call_tool` outcome (supplied by the environment) is either decoded —
the texts of the `TextContent` items joined with a comma, the empty join
replaced by the fallback message — or, for a raised exception, converted to
an error result.  The returned flag records whether a remote call was made. -/
def MCPClientTool.execute (t : MCPClientTool)
    (callOutcome : Except String (List ContentItem)) : ToolResult × Bool :=
  match t.session with
  | none =>
      ({ error := some "MCP server connection not available. This tool requires an active MCP server connection." },
        false)
  | some _ =>
      match callOutcome with
      | .ok content =>
          let content_str := String.intercalate ", " (content.filterMap fun item =>
            match item with
            | .text s => some s
            | .other => none)
          ({ output := some (if content_str = "" then "No output returned." else content_str) },
            true)
      | .error e => ({ error := some ("Error executing tool: " ++ e) }, true)

/-- Lookup in a Python dict embedded as an association list: the value of
the first binding of the key, if any. -/
def dlookup (k : String) : List (String × α) → Option α
  | [] => none
  | (k', v) :: rest => if k' = k then some v else dlookup k rest

/-- Update `d[k] = v` with Python dict semantics: an existing key keeps its
position and gets the new value, a fresh key is appended at the end. -/
def dinsert (k : String) (v : α) : List (String × α) → List (String × α)
  | [] => [(k, v)]
  | (k', v') :: rest => if k' = k then (k, v) :: rest else (k', v') :: dinsert k v rest

/-- Removal `d.pop(k, None)`: drops the binding of `k`, if present. -/
def dremove (k : String) : List (String × α) → List (String × α)
  | [] => []
  | (k', v') :: rest => if k' = k then rest else (k', v') :: dremove k rest

/-- Key list of an embedded dict, in insertion order. -/
def dkeys (l : List (String × α)) : List String := l.map Prod.fst

/-- Value list of an embedded dict, in insertion order (`dict.values()`). -/
def dvalues (l : List (String × α)) : List α := l.map Prod.snd

/-- State of the `MCPClients` manager: the `sessions` and `exit_stacks`
dicts, the inherited `tool_map` dict and `tools` tuple, plus a ledger of
resource handles that have been released by `AsyncExitStack.aclose` (used to
state leak properties).  An exit stack is the list of resource handles
entered on it, in acquisition order. -/
structure MCPClients where
  sessions : List (String × Nat)
  exit_stacks : List (String × List Nat)
  tool_map : List (String × MCPClientTool)
  tools : List MCPClientTool
  closed : List Nat
  deriving DecidableEq, Repr

/-- Fresh manager, as built by `MCPClients.__init__`: every map empty. -/
def MCPClients.init : MCPClients :=
  { sessions := [], exit_stacks := [], tool_map := [], tools := [], closed := [] }

/-- Teardown events emitted by `disconnect`, used to state ordering
properties of the teardown sequence. -/
inductive TEvent where
  | popSession (sid : String)
  | shutdownSession (sid : String)
  | acloseStack (sid : String)
  | popExitStack (sid : String)
  | removeTools (sid : String)
  | resetAll
  deriving DecidableEq, Repr

/-- Environment for one `disconnect` call: whether the bounded
`exit_stack.aclose()` completed within its 5-second ceiling and released the
stack's resources.  Exceptions raised by `session.shutdown()` or by
`aclose()` are caught and logged by the source, so they have no further
state effect either way. -/
structure DisconnectEnv where
  acloseOk : Bool
  deriving DecidableEq, Repr

/-- Single-server branch of `MCPClients.disconnect` (the `if server_id:`
arm).  For a registered id it reads the exit stack, pops the session,
attempts `session.shutdown()` (every exception caught and logged), closes
the exit stack under a 5-second ceiling (every exception caught and logged),
pops the exit-stacks entry, and finally rebuilds `tool_map` without the
tools owned by the id and refreshes the `tools` tuple.  For an unregistered
id it does nothing. -/
def MCPClients.disconnect_one (st : MCPClients) (env : DisconnectEnv) (sid : String) :
    MCPClients × List TEvent :=
  if (dlookup sid st.sessions).isSome then
    let stack := dlookup sid st.exit_stacks
    let st1 := { st with sessions := dremove sid st.sessions }
    let st2 :=
      match stack with
      | some rs => if env.acloseOk then { st1 with closed := st1.closed ++ rs.reverse } else st1
      | none => st1
    let st3 := { st2 with exit_stacks := dremove sid st2.exit_stacks }
    let tm := st3.tool_map.filter fun kv => kv.2.server_id != sid
    let st4 := { st3 with tool_map := tm, tools := dvalues tm }
    (st4, [TEvent.popSession sid, TEvent.shutdownSession sid] ++
      (match stack with | some _ => [TEvent.acloseStack sid] | none => []) ++
      [TEvent.popExitStack sid, TEvent.removeTools sid])
  else (st, [])

/-- The `else` arm of `MCPClients.disconnect`: disconnect every id of the
sorted key list in turn (`for sid in sorted(list(self.sessions.keys()))`). -/
def MCPClients.disconnect_all_go (env : DisconnectEnv) :
    List String → MCPClients → MCPClients × List TEvent
  | [], st => (st, [])
  | k :: ks, st =>
    let r := st.disconnect_one env k
    let r2 := MCPClients.disconnect_all_go env ks r.1
    (r2.1, r.2 ++ r2.2)

/-- Ascending sort of the session ids, embedding Python's `sorted` on
strings (lexicographic, stable). -/
def sortKeys (l : List String) : List String := List.insertionSort (· ≤ ·) l

/-- The dispatcher `MCPClients.disconnect(server_id="")`: a truthy
(non-empty) id goes to the single-server branch; the empty id disconnects
every known server in ascending id order and then clears `tool_map` and
`tools`. -/
def MCPClients.disconnect (st : MCPClients) (env : DisconnectEnv) (sid : String) :
    MCPClients × List TEvent :=
  if sid ≠ "" then st.disconnect_one env sid
  else
    let r := MCPClients.disconnect_all_go env (sortKeys (dkeys st.sessions)) st
    ({ r.1 with tool_map := [], tools := [] }, r.2 ++ [TEvent.resetAll])

/-- Environment for one connect call: the outcomes of the awaited setup
steps (opening the transport streams, entering the `ClientSession` — each
returning a fresh resource handle on success —, `session.initialize()` and
`session.list_tools()`), the value of `scope.cancel_called` at the explicit
check between session registration and initialization, and the environment
used by any rollback `disconnect` the connect performs. -/
structure ConnectEnv where
  transportOutcome : StepOutcome Nat
  sessionOutcome : StepOutcome Nat
  cancelAtCheck : Bool
  initOutcome : StepOutcome Unit
  listOutcome : StepOutcome (List RemoteTool)
  denv : DisconnectEnv
  deriving Repr

/-- The tool proxy built for one discovered remote tool, as constructed in
the registration loop of `_initialize_and_list_tools`: the local name is
always prefixed, `mcp_<server_id>_<original name>`. -/
def mkClientTool (sid : String) (sess : Nat) (t : RemoteTool) : MCPClientTool :=
  { name := "mcp_" ++ sid ++ "_" ++ t.name
    description := t.description
    parameters := t.inputSchema
    session := some sess
    server_id := sid
    original_name := t.name }

/-- Registration loop of `_initialize_and_list_tools`: insert one proxy per
discovered tool under its namespaced name, then refresh the `tools` tuple
from `tool_map.values()`. -/
def MCPClients.register_tools (st : MCPClients) (sid : String) (sess : Nat)
    (ts : List RemoteTool) : MCPClients :=
  let tm := ts.foldl
    (fun tm t => dinsert ("mcp_" ++ sid ++ "_" ++ t.name) (mkClientTool sid sess t) tm)
    st.tool_map
  { st with tool_map := tm, tools := dvalues tm }

/-- Control outcome of a code region executed inside the connect scope:
normal completion, a raised exception, or the scope's deadline cancelling
the region (control then resumes after the `with` block, no exception). -/
inductive CResult where
  | normal
  | raised (msg : String)
  | scopeExit
  deriving DecidableEq, Repr

/-- Embedding of `MCPClients._initialize_and_list_tools`: fails if the id
has no session; otherwise awaits `initialize` and `list_tools` (either may
raise, or the enclosing scope's deadline may cancel them) and on success
runs the registration loop and refreshes the `tools` tuple. -/
def MCPClients.initialize_and_list_tools (st : MCPClients) (env : ConnectEnv)
    (sid : String) : MCPClients × CResult :=
  match dlookup sid st.sessions with
  | none => (st, .raised ("Session not initialized for server " ++ sid))
  | some sess =>
    match env.initOutcome with
    | .raise e => (st, .raised e)
    | .timeout => (st, .scopeExit)
    | .ok _ =>
      match env.listOutcome with
      | .raise e => (st, .raised e)
      | .timeout => (st, .scopeExit)
      | .ok ts => (st.register_tools sid sess ts, .normal)

/-- Shared body of `connect_sse` and `connect_stdio`, which are
line-for-line identical in the source apart from the argument validation,
the transport opened and the text of the timeout error.  After the effective
server id is fixed: a registered id is disconnected first; a fresh
`AsyncExitStack` is stored under the id; then, inside
`with anyio.move_on_after(30.0)`, the transport streams and the
`ClientSession` are entered on the stack, the session is stored, the
explicit `scope.cancel_called` check may raise `TimeoutError`, and
`_initialize_and_list_tools` runs.  A raised exception is caught by the
`except` clause, which calls `disconnect(server_id)` and re-raises; a
deadline cancellation during any await leaves the `with` block silently and
the call returns without error. -/
def MCPClients.connect_body (st : MCPClients) (env : ConnectEnv)
    (sid timeoutMsg : String) : MCPClients × Except String Unit :=
  let st0 := if (dlookup sid st.sessions).isSome then (st.disconnect env.denv sid).1 else st
  let st1 := { st0 with exit_stacks := dinsert sid [] st0.exit_stacks }
  match env.transportOutcome with
  | .timeout => (st1, .ok ())
  | .raise e => ((st1.disconnect env.denv sid).1, .error e)
  | .ok streams =>
    let st2 := { st1 with exit_stacks := dinsert sid [streams] st1.exit_stacks }
    match env.sessionOutcome with
    | .timeout => (st2, .ok ())
    | .raise e => ((st2.disconnect env.denv sid).1, .error e)
    | .ok sess =>
      let st3 := { st2 with
        exit_stacks := dinsert sid [streams, sess] st2.exit_stacks
        sessions := dinsert sid sess st2.sessions }
      if env.cancelAtCheck then
        ((st3.disconnect env.denv sid).1, .error timeoutMsg)
      else
        match st3.initialize_and_list_tools env sid with
        | (st4, .normal) => (st4, .ok ())
        | (st4, .scopeExit) => (st4, .ok ())
        | (st4, .raised e) => ((st4.disconnect env.denv sid).1, .error e)

/-- Embedding of `MCPClients.connect_sse`: requires a non-empty URL,
defaults the server id to the URL (`server_id or server_url`) and runs the
common connect body. -/
def MCPClients.connect_sse (st : MCPClients) (env : ConnectEnv)
    (server_url server_id : String) : MCPClients × Except String Unit :=
  if server_url = "" then (st, .error "Server URL is required.")
  else
    st.connect_body env (if server_id = "" then server_url else server_id)
      "Connection to SSE server timed out"

/-- Embedding of `MCPClients.connect_stdio`: requires a non-empty command,
defaults the server id to the command string (`server_id or command`) and
runs the common connect body.  The argument list only feeds
`StdioServerParameters` and has no further effect on manager state. -/
def MCPClients.connect_stdio (st : MCPClients) (env : ConnectEnv)
    (command : String) (args : List String) (server_id : String) :
    MCPClients × Except String Unit :=
  if command = "" then (st, .error "Server command is required.")
  else
    st.connect_body env (if server_id = "" then command else server_id)
      "Connection to stdio server timed out"

/-- Embedding of `MCPClients.list_tools` (loop with accumulator
`tools_result.tools += response.tools`): each live session's `list_tools`
outcome is supplied by `lenv`; a raised exception propagates out of the
whole call, discarding the tools already accumulated. -/
def MCPClients.list_tools_go (lenv : Nat → Except String (List RemoteTool))
    (acc : List RemoteTool) : List (String × Nat) → Except String (List RemoteTool)
  | [] => .ok acc
  | (_, s) :: rest =>
    match lenv s with
    | .error e => .error e
    | .ok ts => MCPClients.list_tools_go lenv (acc ++ ts) rest

/-- Aggregated `list_tools` over all sessions, in insertion order. -/
def MCPClients.list_tools (st : MCPClients)
    (lenv : Nat → Except String (List RemoteTool)) : Except String (List RemoteTool) :=
  MCPClients.list_tools_go lenv [] st.sessions

/-- Modelled from the spec: tool dispatch `execute(toolName, args)` lives in
`ToolCollection` (`src/tool/tool_collection.py`), which is not among the
sources.  Spec section 4.4: "execute(toolName, args): looks up the
NamespacedTool; ToolNotFound error if absent; otherwise delegates to its
Tool Proxy", and section 7: "ToolNotFound — execute called with an
unregistered name; local, synchronous, no I/O attempted".  The returned flag
records whether any remote call was made. -/
def MCPClients.execute (st : MCPClients) (name : String)
    (callOutcome : Except String (List ContentItem)) : ToolResult × Bool :=
  match dlookup name st.tool_map with
  | none => ({ error := some "ToolNotFound" }, false)
  | some t => t.execute callOutcome

/-! Dictionary lemmas. -/

theorem dlookup_cons_self (k : String) (v : α) (tl : List (String × α)) :
    dlookup k ((k, v) :: tl) = some v := by
  rw [show dlookup k ((k, v) :: tl) = if k = k then some v else dlookup k tl from rfl,
    if_pos rfl]

theorem dlookup_cons_ne (k k₀ : String) (v₀ : α) (tl : List (String × α))
    (h : k₀ ≠ k) : dlookup k ((k₀, v₀) :: tl) = dlookup k tl := by
  rw [show dlookup k ((k₀, v₀) :: tl) = if k₀ = k then some v₀ else dlookup k tl from rfl,
    if_neg h]

theorem dinsert_cons_self (k : String) (v v₀ : α) (tl : List (String × α)) :
    dinsert k v ((k, v₀) :: tl) = (k, v) :: tl := by
  rw [show dinsert k v ((k, v₀) :: tl) =
      (if k = k then (k, v) :: tl else (k, v₀) :: dinsert k v tl) from rfl,
    if_pos rfl]

theorem dinsert_cons_ne (k k₀ : String) (v v₀ : α) (tl : List (String × α))
    (h : k₀ ≠ k) : dinsert k v ((k₀, v₀) :: tl) = (k₀, v₀) :: dinsert k v tl := by
  rw [show dinsert k v ((k₀, v₀) :: tl) =
      (if k₀ = k then (k, v) :: tl else (k₀, v₀) :: dinsert k v tl) from rfl,
    if_neg h]

theorem dremove_cons_self (k : String) (v₀ : α) (tl : List (String × α)) :
    dremove k ((k, v₀) :: tl) = tl := by
  rw [show dremove k ((k, v₀) :: tl) = (if k = k then tl else (k, v₀) :: dremove k tl) from rfl,
    if_pos rfl]

theorem dremove_cons_ne (k k₀ : String) (v₀ : α) (tl : List (String × α))
    (h : k₀ ≠ k) : dremove k ((k₀, v₀) :: tl) = (k₀, v₀) :: dremove k tl := by
  rw [show dremove k ((k₀, v₀) :: tl) = (if k₀ = k then tl else (k₀, v₀) :: dremove k tl) from rfl,
    if_neg h]

theorem dlookup_dinsert_self (k : String) (v : α) (l : List (String × α)) :
    dlookup k (dinsert k v l) = some v := by
  induction l with
  | nil => simp [dinsert, dlookup]
  | cons hd tl ih =>
    obtain ⟨k₀, v₀⟩ := hd
    by_cases h : k₀ = k
    · subst h
      rw [dinsert_cons_self, dlookup_cons_self]
    · rw [dinsert_cons_ne _ _ _ _ _ h, dlookup_cons_ne _ _ _ _ h, ih]

theorem dlookup_dinsert_ne (k' k : String) (v : α) (l : List (String × α))
    (h : k' ≠ k) : dlookup k' (dinsert k v l) = dlookup k' l := by
  have h' : k ≠ k' := fun he => h he.symm
  induction l with
  | nil => simp [dinsert, dlookup, h']
  | cons hd tl ih =>
    obtain ⟨k₀, v₀⟩ := hd
    by_cases h0 : k₀ = k
    · subst h0
      rw [dinsert_cons_self, dlookup_cons_ne _ _ _ _ h', dlookup_cons_ne _ _ _ _ h']
    · by_cases h1 : k₀ = k'
      · subst h1
        rw [dinsert_cons_ne _ _ _ _ _ h0, dlookup_cons_self, dlookup_cons_self]
      · rw [dinsert_cons_ne _ _ _ _ _ h0, dlookup_cons_ne _ _ _ _ h1,
          dlookup_cons_ne _ _ _ _ h1, ih]

theorem dlookup_dremove_ne (k' k : String) (l : List (String × α))
    (h : k' ≠ k) : dlookup k' (dremove k l) = dlookup k' l := by
  have h' : k ≠ k' := fun he => h he.symm
  induction l with
  | nil => simp [dremove]
  | cons hd tl ih =>
    obtain ⟨k₀, v₀⟩ := hd
    by_cases h0 : k₀ = k
    · subst h0
      rw [dremove_cons_self, dlookup_cons_ne _ _ _ _ h']
    · by_cases h1 : k₀ = k'
      · subst h1
        rw [dremove_cons_ne _ _ _ _ h0, dlookup_cons_self, dlookup_cons_self]
      · rw [dremove_cons_ne _ _ _ _ h0, dlookup_cons_ne _ _ _ _ h1,
          dlookup_cons_ne _ _ _ _ h1, ih]

theorem dlookup_eq_none_iff (k : String) (l : List (String × α)) :
    dlookup k l = none ↔ k ∉ dkeys l := by
  induction l with
  | nil => simp [dlookup, dkeys]
  | cons hd tl ih =>
    obtain ⟨k₀, v₀⟩ := hd
    by_cases h : k₀ = k
    · subst h
      rw [dlookup_cons_self]
      simp [dkeys]
    · rw [dlookup_cons_ne _ _ _ _ h]
      simp only [dkeys, List.map_cons, List.mem_cons] at ih ⊢
      rw [ih]
      push_neg
      exact ⟨fun hk => ⟨fun he => h he.symm, hk⟩, fun hk => hk.2⟩

theorem dlookup_isSome_iff (k : String) (l : List (String × α)) :
    (dlookup k l).isSome ↔ k ∈ dkeys l := by
  rw [Option.isSome_iff_ne_none, ne_eq, dlookup_eq_none_iff, not_not]

theorem dremove_of_not_mem (k : String) (l : List (String × α)) :
    k ∉ dkeys l → dremove k l = l := by
  induction l with
  | nil => intro _; rfl
  | cons hd tl ih =>
    intro h
    obtain ⟨k₀, v₀⟩ := hd
    simp only [dkeys, List.map_cons, List.mem_cons] at h
    push_neg at h
    rw [dremove_cons_ne _ _ _ _ (fun he : k₀ = k => h.1 he.symm), ih h.2]

theorem dkeys_dremove_sublist (k : String) (l : List (String × α)) :
    (dkeys (dremove k l)).Sublist (dkeys l) := by
  induction l with
  | nil => simp [dremove, dkeys]
  | cons hd tl ih =>
    obtain ⟨k₀, v₀⟩ := hd
    by_cases h : k₀ = k
    · subst h
      rw [dremove_cons_self]
      simp only [dkeys, List.map_cons]
      exact (List.Sublist.refl _).cons _
    · rw [dremove_cons_ne _ _ _ _ h]
      simp only [dkeys, List.map_cons]
      exact ih.cons₂ k₀

theorem nodup_dkeys_dremove (k : String) (l : List (String × α))
    (h : (dkeys l).Nodup) : (dkeys (dremove k l)).Nodup :=
  (dkeys_dremove_sublist k l).nodup h

theorem not_mem_dkeys_dremove (k : String) (l : List (String × α)) :
    (dkeys l).Nodup → k ∉ dkeys (dremove k l) := by
  induction l with
  | nil => intro _; simp [dremove, dkeys]
  | cons hd tl ih =>
    intro h
    obtain ⟨k₀, v₀⟩ := hd
    simp only [dkeys, List.map_cons, List.nodup_cons] at h
    by_cases hk : k₀ = k
    · subst hk
      rw [dremove_cons_self]
      exact h.1
    · rw [dremove_cons_ne _ _ _ _ hk]
      simp only [dkeys, List.map_cons, List.mem_cons]
      push_neg
      exact ⟨fun he => hk he.symm, ih h.2⟩

theorem mem_dkeys_dinsert (k' k : String) (v : α) (l : List (String × α)) :
    k' ∈ dkeys (dinsert k v l) ↔ k' = k ∨ k' ∈ dkeys l := by
  induction l with
  | nil => simp [dinsert, dkeys]
  | cons hd tl ih =>
    obtain ⟨k₀, v₀⟩ := hd
    by_cases h : k₀ = k
    · subst h
      rw [dinsert_cons_self]
      simp only [dkeys, List.map_cons, List.mem_cons]
      tauto
    · rw [dinsert_cons_ne _ _ _ _ _ h]
      simp only [dkeys, List.map_cons, List.mem_cons] at ih ⊢
      rw [ih]
      tauto

theorem dkeys_dinsert_of_not_mem (k : String) (v : α) (l : List (String × α)) :
    k ∉ dkeys l → dkeys (dinsert k v l) = dkeys l ++ [k] := by
  induction l with
  | nil => intro _; simp [dinsert, dkeys]
  | cons hd tl ih =>
    intro h
    obtain ⟨k₀, v₀⟩ := hd
    simp only [dkeys, List.map_cons, List.mem_cons] at h
    push_neg at h
    rw [dinsert_cons_ne _ _ _ _ _ (fun he : k₀ = k => h.1 he.symm)]
    simp only [dkeys, List.map_cons] at ih ⊢
    rw [ih h.2, List.cons_append]

theorem nodup_dkeys_dinsert (k : String) (v : α) (l : List (String × α)) :
    (dkeys l).Nodup → (dkeys (dinsert k v l)).Nodup := by
  induction l with
  | nil => intro _; simp [dinsert, dkeys]
  | cons hd tl ih =>
    intro h
    obtain ⟨k₀, v₀⟩ := hd
    simp only [dkeys, List.map_cons, List.nodup_cons] at h
    by_cases hk : k₀ = k
    · subst hk
      rw [dinsert_cons_self]
      simp only [dkeys, List.map_cons, List.nodup_cons]
      exact h
    · rw [dinsert_cons_ne _ _ _ _ _ hk]
      simp only [dkeys, List.map_cons, List.nodup_cons]
      refine ⟨fun hc => ?_, ih h.2⟩
      rcases (mem_dkeys_dinsert k₀ k v tl).mp (by simpa [dkeys] using hc) with he | hm
      · exact hk he
      · exact h.1 hm

theorem dlookup_filter (k : String) (l : List (String × α)) (p : String × α → Bool) :
    (dkeys l).Nodup →
    dlookup k (l.filter p) =
      (match dlookup k l with
       | some v => if p (k, v) then some v else none
       | none => none) := by
  induction l with
  | nil => intro _; simp [dlookup]
  | cons hd tl ih =>
    intro h
    obtain ⟨k₀, v₀⟩ := hd
    simp only [dkeys, List.map_cons, List.nodup_cons] at h
    by_cases hk : k₀ = k
    · subst hk
      have htl : dlookup k₀ tl = none := (dlookup_eq_none_iff k₀ tl).mpr h.1
      rw [dlookup_cons_self]
      by_cases hp : p (k₀, v₀) = true
      · rw [List.filter_cons, if_pos hp, dlookup_cons_self]
        simp [hp]
      · rw [List.filter_cons, if_neg hp, ih h.2, htl]
        simp [hp]
    · rw [dlookup_cons_ne _ _ _ _ hk]
      by_cases hp : p (k₀, v₀) = true
      · rw [List.filter_cons, if_pos hp, dlookup_cons_ne _ _ _ _ hk]
        exact ih h.2
      · rw [List.filter_cons, if_neg hp]
        exact ih h.2

theorem nodup_dkeys_filter (l : List (String × α)) (p : String × α → Bool)
    (h : (dkeys l).Nodup) : (dkeys (l.filter p)).Nodup :=
  ((List.filter_sublist l).map Prod.fst).nodup h

deriving instance DecidableEq for Except

theorem dinsert_dinsert (k : String) (v v' : α) (l : List (String × α)) :
    dinsert k v (dinsert k v' l) = dinsert k v l := by
  induction l with
  | nil => simp [dinsert]
  | cons hd tl ih =>
    obtain ⟨k₀, v₀⟩ := hd
    by_cases h : k₀ = k
    · subst h
      rw [dinsert_cons_self, dinsert_cons_self, dinsert_cons_self]
    · rw [dinsert_cons_ne _ _ _ _ _ h, dinsert_cons_ne _ _ _ _ _ h,
        dinsert_cons_ne _ _ _ _ _ h, ih]

/-! Shape lemmas for the manager operations. -/

theorem disconnect_one_eq (st : MCPClients) (env : DisconnectEnv) (sid : String)
    (hreg : (dlookup sid st.sessions).isSome) :
    st.disconnect_one env sid =
      ({ sessions := dremove sid st.sessions
         exit_stacks := dremove sid st.exit_stacks
         tool_map := st.tool_map.filter (fun kv => kv.2.server_id != sid)
         tools := dvalues (st.tool_map.filter (fun kv => kv.2.server_id != sid))
         closed := st.closed ++
           (if env.acloseOk then
             (match dlookup sid st.exit_stacks with
              | some rs => rs.reverse
              | none => []) else []) },
       [TEvent.popSession sid, TEvent.shutdownSession sid] ++
         (match dlookup sid st.exit_stacks with
          | some _ => [TEvent.acloseStack sid]
          | none => []) ++
         [TEvent.popExitStack sid, TEvent.removeTools sid]) := by
  unfold MCPClients.disconnect_one
  rw [if_pos hreg]
  cases hstack : dlookup sid st.exit_stacks with
  | none => simp [hstack]
  | some rs =>
    by_cases hac : env.acloseOk
    · simp [hstack, hac]
    · simp [hstack, hac]

theorem disconnect_one_not_reg (st : MCPClients) (env : DisconnectEnv) (sid : String)
    (h : dlookup sid st.sessions = none) :
    st.disconnect_one env sid = (st, []) := by
  unfold MCPClients.disconnect_one
  rw [h]
  simp

theorem disconnect_eq_disconnect_one (st : MCPClients) (env : DisconnectEnv)
    (sid : String) (h : sid ≠ "") :
    st.disconnect env sid = st.disconnect_one env sid := by
  unfold MCPClients.disconnect
  rw [if_pos h]

/-! Concrete scenarios used by the closed theorems below. -/

/-- Disconnect environment in which the bounded `aclose` succeeds. -/
def denv0 : DisconnectEnv := { acloseOk := true }

/-- Connect environment in which opening the transport raises. -/
def envFail : ConnectEnv :=
  { transportOutcome := .raise "transport open failed", sessionOutcome := .ok 1,
    cancelAtCheck := false, initOutcome := .ok (), listOutcome := .ok [], denv := denv0 }

/-- Connect environment in which the transport opens (resource handle 0) and
entering the `ClientSession` raises. -/
def envSessFail : ConnectEnv :=
  { transportOutcome := .ok 0, sessionOutcome := .raise "session open failed",
    cancelAtCheck := false, initOutcome := .ok (), listOutcome := .ok [], denv := denv0 }

/-- Connect environment in which transport and session setup succeed but the
30-second deadline expires while `session.initialize()` is pending. -/
def envTimeoutInit : ConnectEnv :=
  { transportOutcome := .ok 0, sessionOutcome := .ok 1,
    cancelAtCheck := false, initOutcome := .timeout, listOutcome := .ok [], denv := denv0 }

/-- A remote tool named `fetch_price`. -/
def t1 : RemoteTool := { name := "fetch_price", description := "d", inputSchema := "s" }

/-- A remote tool named `quote`. -/
def t2 : RemoteTool := { name := "quote", description := "d2", inputSchema := "s2" }

/-- Fully successful connect environment discovering `t1` (handles 0, 1). -/
def envOkA : ConnectEnv :=
  { transportOutcome := .ok 0, sessionOutcome := .ok 1,
    cancelAtCheck := false, initOutcome := .ok (), listOutcome := .ok [t1], denv := denv0 }

/-- Fully successful connect environment discovering `t2` (handles 2, 3). -/
def envOkB : ConnectEnv :=
  { transportOutcome := .ok 2, sessionOutcome := .ok 3,
    cancelAtCheck := false, initOutcome := .ok (), listOutcome := .ok [t2], denv := denv0 }

/-- Manager state after one successful connect to server `A`. -/
def stA : MCPClients := (MCPClients.init.connect_sse envOkA "http://a" "A").1

/-- Manager state after successful connects to servers `A` and `B`. -/
def stAB : MCPClients := (stA.connect_sse envOkB "http://b" "B").1

/-- Manager state after a connect to `A` that failed while opening the
transport (starting from a fresh manager). -/
def stLeak : MCPClients := (MCPClients.init.connect_sse envFail "http://s" "A").1

/-- A proxy tool with no session attached. -/
def toolNoSession : MCPClientTool :=
  { name := "mcp_A_x", description := "", parameters := "", session := none,
    server_id := "A", original_name := "x" }

/-! Claim theorems. -/

/-- C1: the claim states that a connect call failing during setup leaves the
manager's state exactly as before the call — no entry for the attempted
serverId in the sessions map, the exit-stacks map or the tool registry, and
no acquired resource unreleased.  The code violates this: the rollback in
the `except` clause calls `disconnect(server_id)`, whose body is guarded by
`if server_id in self.sessions`, so when the failure happens before
`self.sessions[server_id] = session` (transport open or session creation
raising) the rollback is a no-op.  Starting from a fresh manager, a connect
to `A` whose session creation raises surfaces the error but leaves the
exit-stacks entry for `A` holding the already-acquired transport resource 0,
which is never released. -/
theorem C1_code_bug_evidence :
    (MCPClients.init.connect_sse envSessFail "http://s" "A").2 =
      .error "session open failed" ∧
    dlookup "A" (MCPClients.init.connect_sse envSessFail "http://s" "A").1.exit_stacks =
      some [0] ∧
    (0 : Nat) ∉ (MCPClients.init.connect_sse envSessFail "http://s" "A").1.closed ∧
    (MCPClients.init.connect_sse envSessFail "http://s" "A").1 ≠ MCPClients.init := by
  decide

/-- C3: the claim states that a connect attempt not completing within the
30-second ceiling surfaces a connect error and rolls back to zero entries
for the serverId.  The code violates this: `anyio.move_on_after` absorbs the
cancellation, so when the deadline expires while `session.initialize()` is
pending, control leaves the `with` block silently — the explicit
`scope.cancel_called` check sits *before* `_initialize_and_list_tools` and
is never reached again.  The call returns without error, and both the
session and the exit stack for `B` stay registered. -/
theorem C3_code_bug_evidence :
    (MCPClients.init.connect_sse envTimeoutInit "http://b" "B").2 = .ok () ∧
    dlookup "B" (MCPClients.init.connect_sse envTimeoutInit "http://b" "B").1.sessions =
      some 1 ∧
    dlookup "B" (MCPClients.init.connect_sse envTimeoutInit "http://b" "B").1.exit_stacks =
      some [0, 1] := by
  decide

/-- C2, counterexample: for the two-call sequence on serverId `A` — a fully
successful connect followed by a connect whose transport open raises — the
claim asserts that afterwards the manager holds exactly one live session
under `A`; in fact it holds none (the failing connect first disconnected the
live session and then failed), so the claim as stated is false. -/
theorem C2_counterexample :
    (MCPClients.init.connect_sse envOkA "http://a" "A").2 = .ok () ∧
    (stA.connect_sse envFail "http://a" "A").2 = .error "transport open failed" ∧
    dlookup "A" (stA.connect_sse envFail "http://a" "A").1.sessions = none ∧
    (stA.connect_sse envFail "http://a" "A").1.sessions = [] := by
  decide

/-- C4, counterexample: for the registered id `A` of `stA`, the teardown
event trace of `disconnect("A")` removes the id's tools as its *last* step,
after the session shutdown and the exit-stack release — not before them as
the claim requires: the index of the tool-removal event is not smaller than
the index of the shutdown event. -/
theorem C4_counterexample :
    (stA.disconnect denv0 "A").2 =
      [TEvent.popSession "A", TEvent.shutdownSession "A", TEvent.acloseStack "A",
        TEvent.popExitStack "A", TEvent.removeTools "A"] ∧
    ¬ ((stA.disconnect denv0 "A").2.indexOf (TEvent.removeTools "A") <
        (stA.disconnect denv0 "A").2.indexOf (TEvent.shutdownSession "A")) := by
  decide

/-- Per-session listing outcomes for the two-server state `stAB`: server
`A`'s session (handle 1) lists `t1` successfully, server `B`'s session
(handle 3) raises. -/
def lenvBoom : Nat → Except String (List RemoteTool) :=
  fun s => if s = 1 then .ok [t1] else .error "boom"

/-- C7, counterexample: with two connected servers where `A`'s per-session
listing succeeds with `t1` and `B`'s raises, the claim asserts the
aggregated `list_tools` returns the tools of the servers whose listing
succeeded; in fact the whole call propagates `B`'s error and returns no
partial result. -/
theorem C7_counterexample :
    stAB.list_tools lenvBoom = .error "boom" ∧
    stAB.list_tools lenvBoom ≠ .ok [t1] := by
  decide

/-- C8, counterexample: from the reachable state `stLeak` (a fresh manager
after one failed connect to `A`, which leaks the exit-stacks entry for `A`),
`disconnect()` with no id empties the sessions map and the tool registry but
leaves the exit-stacks map non-empty, so the claim's "leaves the … exit-stacks
map … empty" is false. -/
theorem C8_counterexample :
    (stLeak.disconnect denv0 "").1.sessions = [] ∧
    (stLeak.disconnect denv0 "").1.tool_map = [] ∧
    (stLeak.disconnect denv0 "").1.exit_stacks = [("A", [])] ∧
    (stLeak.disconnect denv0 "").1.exit_stacks ≠ [] := by
  decide

/-- C6: every invocation of the tool proxy's execute returns a result value
and never propagates an exception (the embedding is a total function into
`ToolResult × Bool`): the result always carries an output or an error; with
no session it is the connection-unavailable error and no remote call is made
(flag `false`); an exception raised by the remote call is converted into an
error result; and a successful remote call yields an output result. -/
theorem C6_execute_result (t : MCPClientTool) (out : Except String (List ContentItem)) :
    ((t.execute out).1.output.isSome ∨ (t.execute out).1.error.isSome) ∧
    (t.session = none →
      t.execute out =
        ({ error := some "MCP server connection not available. This tool requires an active MCP server connection." },
          false)) ∧
    (∀ e, out = .error e → t.session ≠ none →
      t.execute out = ({ error := some ("Error executing tool: " ++ e) }, true)) ∧
    (∀ content, out = .ok content → t.session ≠ none →
      (t.execute out).1.error = none ∧ (t.execute out).1.output.isSome ∧
      (t.execute out).2 = true) := by
  rcases hs : t.session with _ | sess <;> rcases ho : out with e | content <;>
    simp [MCPClientTool.execute, hs, ho]

/-- C6 witness: the session-less proxy returns the connection-unavailable
error result and contacts no server. -/
theorem C6_witness :
    toolNoSession.execute (.ok []) =
      ({ error := some "MCP server connection not available. This tool requires an active MCP server connection." },
        false) :=
  (C6_execute_result toolNoSession (.ok [])).2.1 rfl

/-- C4, amended: in every execution of disconnect(serverId) for a registered
id, the serverId's tools are removed from the aggregated tool registry as
the last teardown step, strictly after the session shutdown (and the
exit-stack release) have been attempted. -/
theorem C4_amended_holds (st : MCPClients) (env : DisconnectEnv) (sid : String)
    (hsid : sid ≠ "") (hreg : (dlookup sid st.sessions).isSome) :
    ∃ i j, i < j ∧
      (st.disconnect env sid).2.get? i = some (TEvent.shutdownSession sid) ∧
      (st.disconnect env sid).2.get? j = some (TEvent.removeTools sid) ∧
      (st.disconnect env sid).2.getLast? = some (TEvent.removeTools sid) := by
  rw [disconnect_eq_disconnect_one st env sid hsid, disconnect_one_eq st env sid hreg]
  cases dlookup sid st.exit_stacks with
  | none => exact ⟨1, 3, by norm_num, rfl, rfl, rfl⟩
  | some rs => exact ⟨1, 4, by norm_num, rfl, rfl, rfl⟩

/-- C4 amended witness: for the concrete one-server state `stA`. -/
theorem C4_amended_witness :
    ∃ i j, i < j ∧
      (stA.disconnect denv0 "A").2.get? i = some (TEvent.shutdownSession "A") ∧
      (stA.disconnect denv0 "A").2.get? j = some (TEvent.removeTools "A") ∧
      (stA.disconnect denv0 "A").2.getLast? = some (TEvent.removeTools "A") :=
  C4_amended_holds stA denv0 "A" (by decide) (by decide)

theorem list_tools_go_error (lenv : Nat → Except String (List RemoteTool))
    (sid : String) (s : Nat) (e : String) (post : List (String × Nat))
    (hfail : lenv s = .error e) :
    ∀ (pre : List (String × Nat)) (acc : List RemoteTool),
      (∀ p ∈ pre, ∃ ts, lenv p.2 = .ok ts) →
      MCPClients.list_tools_go lenv acc (pre ++ (sid, s) :: post) = .error e := by
  intro pre
  induction pre with
  | nil =>
    intro acc _
    simp [MCPClients.list_tools_go, hfail]
  | cons hd tl ih =>
    intro acc hpre
    obtain ⟨k₀, s₀⟩ := hd
    obtain ⟨ts, hts⟩ := hpre (k₀, s₀) (List.mem_cons_self _ _)
    simp only [List.cons_append, MCPClients.list_tools_go, hts]
    exact ih (acc ++ ts) (fun p hp => hpre p (List.mem_cons_of_mem _ hp))

/-- C7, amended: when some server's per-session listing raises, the
aggregated list_tools fails wholesale — it propagates the error of the first
failing server (in session insertion order; every earlier session listed
successfully) and returns none of the already-collected tools. -/
theorem C7_amended_holds (st : MCPClients) (lenv : Nat → Except String (List RemoteTool))
    (pre post : List (String × Nat)) (sid : String) (s : Nat) (e : String)
    (hsess : st.sessions = pre ++ (sid, s) :: post)
    (hpre : ∀ p ∈ pre, ∃ ts, lenv p.2 = .ok ts)
    (hfail : lenv s = .error e) :
    st.list_tools lenv = .error e := by
  unfold MCPClients.list_tools
  rw [hsess]
  exact list_tools_go_error lenv sid s e post hfail pre [] hpre

/-- C7 amended witness: for the two-server state `stAB` where `A` lists
successfully and `B` raises. -/
theorem C7_amended_witness : stAB.list_tools lenvBoom = .error "boom" :=
  C7_amended_holds stAB lenvBoom [("A", 1)] [] "B" 3 "boom" (by decide)
    (by
      intro p hp
      simp only [List.mem_singleton] at hp
      subst hp
      exact ⟨[t1], rfl⟩)
    rfl

/-- C5: for a registered serverId, after disconnect(serverId) the id's
session is gone (so the aggregated listing no longer consults it and returns
none of its tools), every remaining registry entry is owned by a different
server, the name of any tool that was registered to the id resolves to
nothing, and executing such a name returns the ToolNotFound error without
any remote call being made (flag `false`). -/
theorem C5_disconnect_isolates (st : MCPClients) (env : DisconnectEnv)
    (sid name : String) (t : MCPClientTool) (out : Except String (List ContentItem))
    (hsid : sid ≠ "")
    (hnodupT : (dkeys st.tool_map).Nodup)
    (hnodupS : (dkeys st.sessions).Nodup)
    (hreg : (dlookup sid st.sessions).isSome)
    (hname : dlookup name st.tool_map = some t)
    (howner : t.server_id = sid) :
    dlookup sid (st.disconnect env sid).1.sessions = none ∧
    (∀ kv ∈ (st.disconnect env sid).1.tool_map, kv.2.server_id ≠ sid) ∧
    dlookup name (st.disconnect env sid).1.tool_map = none ∧
    (st.disconnect env sid).1.execute name out = ({ error := some "ToolNotFound" }, false) := by
  rw [disconnect_eq_disconnect_one st env sid hsid, disconnect_one_eq st env sid hreg]
  have hmap : dlookup name
      (st.tool_map.filter (fun kv => kv.2.server_id != sid)) = none := by
    rw [dlookup_filter name st.tool_map _ hnodupT, hname]
    simp [howner]
  refine ⟨?_, ?_, hmap, ?_⟩
  · exact (dlookup_eq_none_iff _ _).mpr (not_mem_dkeys_dremove sid st.sessions hnodupS)
  · intro kv hkv
    have := (List.mem_filter.mp hkv).2
    simpa using this
  · unfold MCPClients.execute
    rw [hmap]

/-- C5 witness: for the concrete one-server state `stA` and its registered
tool name `mcp_A_fetch_price`. -/
theorem C5_witness :
    dlookup "A" (stA.disconnect denv0 "A").1.sessions = none ∧
    (∀ kv ∈ (stA.disconnect denv0 "A").1.tool_map, kv.2.server_id ≠ "A") ∧
    dlookup "mcp_A_fetch_price" (stA.disconnect denv0 "A").1.tool_map = none ∧
    (stA.disconnect denv0 "A").1.execute "mcp_A_fetch_price" (.ok []) =
      ({ error := some "ToolNotFound" }, false) :=
  C5_disconnect_isolates stA denv0 "A" "mcp_A_fetch_price" (mkClientTool "A" 1 t1)
    (.ok []) (by decide) (by decide) (by decide) (by decide) (by decide) rfl

/-- Shape of the success path of the shared connect body: when the
transport opens with handle `r`, the session enters with handle `s`, the
explicit cancel check does not fire, and `initialize` and `list_tools`
succeed with tool list `ts`, the call returns without error and the final
state registers the session, the exit stack holding both resources, and the
namespaced tools. -/
theorem connect_body_ok (st : MCPClients) (env : ConnectEnv) (sid msg : String)
    (r s : Nat) (ts : List RemoteTool)
    (ht : env.transportOutcome = .ok r) (hs : env.sessionOutcome = .ok s)
    (hc : env.cancelAtCheck = false) (hi : env.initOutcome = .ok ())
    (hl : env.listOutcome = .ok ts) :
    st.connect_body env sid msg =
      (let st0 := if (dlookup sid st.sessions).isSome
        then (st.disconnect env.denv sid).1 else st
       ({ sessions := dinsert sid s st0.sessions
          exit_stacks := dinsert sid [r, s] st0.exit_stacks
          tool_map := ts.foldl (fun tm t =>
            dinsert ("mcp_" ++ sid ++ "_" ++ t.name) (mkClientTool sid s t) tm) st0.tool_map
          tools := dvalues (ts.foldl (fun tm t =>
            dinsert ("mcp_" ++ sid ++ "_" ++ t.name) (mkClientTool sid s t) tm) st0.tool_map)
          closed := st0.closed }, Except.ok ())) := by
  unfold MCPClients.connect_body MCPClients.initialize_and_list_tools
  rw [ht, hs, hc, hl, hi]
  simp only [dlookup_dinsert_self]
  unfold MCPClients.register_tools
  simp only [Bool.false_eq_true, if_false, dinsert_dinsert, mkClientTool]

theorem dlookup_register_foldl_of_not_mem (sid : String) (s : Nat) (k : String)
    (ts : List RemoteTool) :
    ∀ (tm : List (String × MCPClientTool)),
      k ∉ (ts.map fun t => "mcp_" ++ sid ++ "_" ++ t.name) →
      dlookup k (ts.foldl (fun tm t =>
        dinsert ("mcp_" ++ sid ++ "_" ++ t.name) (mkClientTool sid s t) tm) tm) =
        dlookup k tm := by
  induction ts with
  | nil => intro tm _; rfl
  | cons hd tl ih =>
    intro tm hk
    simp only [List.map_cons, List.mem_cons] at hk
    push_neg at hk
    rw [List.foldl_cons, ih _ hk.2, dlookup_dinsert_ne _ _ _ _ hk.1]

theorem register_foldl_lookup (sid : String) (s : Nat) (ts : List RemoteTool) :
    ∀ (tm : List (String × MCPClientTool)),
      (ts.map fun t => "mcp_" ++ sid ++ "_" ++ t.name).Nodup →
      ∀ t ∈ ts,
        dlookup ("mcp_" ++ sid ++ "_" ++ t.name)
          (ts.foldl (fun tm t =>
            dinsert ("mcp_" ++ sid ++ "_" ++ t.name) (mkClientTool sid s t) tm) tm) =
          some (mkClientTool sid s t) := by
  induction ts with
  | nil => intro tm _ t ht; cases ht
  | cons hd tl ih =>
    intro tm hnodup t ht
    simp only [List.map_cons, List.nodup_cons] at hnodup
    rcases List.mem_cons.mp ht with he | hm
    · subst he
      rw [List.foldl_cons, dlookup_register_foldl_of_not_mem sid s _ tl _ hnodup.1]
      exact dlookup_dinsert_self _ _ _
    · rw [List.foldl_cons]
      exact ih _ hnodup.2 t hm

theorem register_foldl_lookup_src (sid : String) (s : Nat) (k : String)
    (ts : List RemoteTool) :
    ∀ (tm : List (String × MCPClientTool)) (v : MCPClientTool),
      dlookup k (ts.foldl (fun tm t =>
        dinsert ("mcp_" ++ sid ++ "_" ++ t.name) (mkClientTool sid s t) tm) tm) = some v →
      (∃ t ∈ ts, k = "mcp_" ++ sid ++ "_" ++ t.name) ∨ dlookup k tm = some v := by
  induction ts with
  | nil => intro tm v h; right; exact h
  | cons hd tl ih =>
    intro tm v h
    rw [List.foldl_cons] at h
    rcases ih _ v h with hsrc | hbase
    · left
      obtain ⟨t, htl, hk⟩ := hsrc
      exact ⟨t, List.mem_cons_of_mem _ htl, hk⟩
    · by_cases hk : k = "mcp_" ++ sid ++ "_" ++ hd.name
      · left
        exact ⟨hd, List.mem_cons_self _ _, hk⟩
      · right
        rwa [dlookup_dinsert_ne _ _ _ _ hk] at hbase

/-- C9: for every tool discovered by a successful connect, the locally
registered name is the string `mcp_` + serverId + `_` + remoteName, where
serverId is the caller-supplied id or, when empty, the connection target —
the URL for the SSE transport and the command string for the stdio
transport.  The registered proxy carries exactly that name, the owning
serverId, the remote original name, and the discovering session. -/
theorem C9_tool_naming (st : MCPClients) (env : ConnectEnv)
    (server_url command : String) (args : List String) (server_id : String)
    (r s : Nat) (ts : List RemoteTool)
    (ht : env.transportOutcome = .ok r) (hs : env.sessionOutcome = .ok s)
    (hc : env.cancelAtCheck = false) (hi : env.initOutcome = .ok ())
    (hl : env.listOutcome = .ok ts)
    (hurl : server_url ≠ "") (hcmd : command ≠ "")
    (hn1 : (ts.map fun t =>
      "mcp_" ++ (if server_id = "" then server_url else server_id) ++ "_" ++ t.name).Nodup)
    (hn2 : (ts.map fun t =>
      "mcp_" ++ (if server_id = "" then command else server_id) ++ "_" ++ t.name).Nodup) :
    (∀ t ∈ ts,
      dlookup ("mcp_" ++ (if server_id = "" then server_url else server_id) ++ "_" ++ t.name)
          (st.connect_sse env server_url server_id).1.tool_map =
        some (mkClientTool (if server_id = "" then server_url else server_id) s t)) ∧
    (∀ t ∈ ts,
      dlookup ("mcp_" ++ (if server_id = "" then command else server_id) ++ "_" ++ t.name)
          (st.connect_stdio env command args server_id).1.tool_map =
        some (mkClientTool (if server_id = "" then command else server_id) s t)) := by
  constructor
  · intro t htm
    unfold MCPClients.connect_sse
    rw [if_neg hurl,
      connect_body_ok st env (if server_id = "" then server_url else server_id) _ r s ts
        ht hs hc hi hl]
    exact register_foldl_lookup _ s ts _ hn1 t htm
  · intro t htm
    unfold MCPClients.connect_stdio
    rw [if_neg hcmd,
      connect_body_ok st env (if server_id = "" then command else server_id) _ r s ts
        ht hs hc hi hl]
    exact register_foldl_lookup _ s ts _ hn2 t htm

/-- C9 witness: connecting with an empty caller-supplied id to the URL
`http://a` (SSE) and to the command `qstock` (stdio) registers the tool
`fetch_price` under `mcp_http://a_fetch_price` and `mcp_qstock_fetch_price`
respectively. -/
theorem C9_witness :
    (∀ t ∈ [t1],
      dlookup ("mcp_" ++ (if ("" : String) = "" then "http://a" else "") ++ "_" ++ t.name)
          (MCPClients.init.connect_sse envOkA "http://a" "").1.tool_map =
        some (mkClientTool (if ("" : String) = "" then "http://a" else "") 1 t)) ∧
    (∀ t ∈ [t1],
      dlookup ("mcp_" ++ (if ("" : String) = "" then "qstock" else "") ++ "_" ++ t.name)
          (MCPClients.init.connect_stdio envOkA "qstock" ["--serve"] "").1.tool_map =
        some (mkClientTool (if ("" : String) = "" then "qstock" else "") 1 t)) :=
  C9_tool_naming MCPClients.init envOkA "http://a" "qstock" ["--serve"] "" 0 1 [t1]
    rfl rfl rfl rfl rfl (by decide) (by decide) (by decide) (by decide)

theorem connect_body_transport_timeout (st : MCPClients) (env : ConnectEnv)
    (sid msg : String) (ht : env.transportOutcome = .timeout) :
    st.connect_body env sid msg =
      (let st0 := if (dlookup sid st.sessions).isSome
        then (st.disconnect env.denv sid).1 else st
       ({ st0 with exit_stacks := dinsert sid [] st0.exit_stacks }, Except.ok ())) := by
  unfold MCPClients.connect_body
  rw [ht]

theorem connect_body_transport_raise (st : MCPClients) (env : ConnectEnv)
    (sid msg e : String) (ht : env.transportOutcome = .raise e) :
    st.connect_body env sid msg =
      (let st0 := if (dlookup sid st.sessions).isSome
        then (st.disconnect env.denv sid).1 else st
       ((({ st0 with exit_stacks := dinsert sid [] st0.exit_stacks }).disconnect
          env.denv sid).1, Except.error e)) := by
  unfold MCPClients.connect_body
  rw [ht]

theorem connect_body_session_timeout (st : MCPClients) (env : ConnectEnv)
    (sid msg : String) (r : Nat) (ht : env.transportOutcome = .ok r)
    (hse : env.sessionOutcome = .timeout) :
    st.connect_body env sid msg =
      (let st0 := if (dlookup sid st.sessions).isSome
        then (st.disconnect env.denv sid).1 else st
       ({ st0 with exit_stacks := dinsert sid [r] st0.exit_stacks }, Except.ok ())) := by
  unfold MCPClients.connect_body
  rw [ht, hse]
  simp only [dinsert_dinsert]

theorem connect_body_session_raise (st : MCPClients) (env : ConnectEnv)
    (sid msg e : String) (r : Nat) (ht : env.transportOutcome = .ok r)
    (hse : env.sessionOutcome = .raise e) :
    st.connect_body env sid msg =
      (let st0 := if (dlookup sid st.sessions).isSome
        then (st.disconnect env.denv sid).1 else st
       ((({ st0 with exit_stacks := dinsert sid [r] st0.exit_stacks }).disconnect
          env.denv sid).1, Except.error e)) := by
  unfold MCPClients.connect_body
  rw [ht, hse]
  simp only [dinsert_dinsert]

theorem connect_body_cancel (st : MCPClients) (env : ConnectEnv)
    (sid msg : String) (r s : Nat) (ht : env.transportOutcome = .ok r)
    (hse : env.sessionOutcome = .ok s) (hcc : env.cancelAtCheck = true) :
    st.connect_body env sid msg =
      (let st0 := if (dlookup sid st.sessions).isSome
        then (st.disconnect env.denv sid).1 else st
       ((({ st0 with
            exit_stacks := dinsert sid [r, s] st0.exit_stacks
            sessions := dinsert sid s st0.sessions }).disconnect env.denv sid).1,
        Except.error msg)) := by
  unfold MCPClients.connect_body
  rw [ht, hse, hcc]
  simp only [dinsert_dinsert, if_true]

theorem connect_body_init_raise (st : MCPClients) (env : ConnectEnv)
    (sid msg e : String) (r s : Nat) (ht : env.transportOutcome = .ok r)
    (hse : env.sessionOutcome = .ok s) (hcc : env.cancelAtCheck = false)
    (hi : env.initOutcome = .raise e) :
    st.connect_body env sid msg =
      (let st0 := if (dlookup sid st.sessions).isSome
        then (st.disconnect env.denv sid).1 else st
       ((({ st0 with
            exit_stacks := dinsert sid [r, s] st0.exit_stacks
            sessions := dinsert sid s st0.sessions }).disconnect env.denv sid).1,
        Except.error e)) := by
  unfold MCPClients.connect_body MCPClients.initialize_and_list_tools
  rw [ht, hse, hcc, hi]
  simp only [dinsert_dinsert, Bool.false_eq_true, if_false, dlookup_dinsert_self]

theorem connect_body_init_timeout (st : MCPClients) (env : ConnectEnv)
    (sid msg : String) (r s : Nat) (ht : env.transportOutcome = .ok r)
    (hse : env.sessionOutcome = .ok s) (hcc : env.cancelAtCheck = false)
    (hi : env.initOutcome = .timeout) :
    st.connect_body env sid msg =
      (let st0 := if (dlookup sid st.sessions).isSome
        then (st.disconnect env.denv sid).1 else st
       ({ st0 with
          exit_stacks := dinsert sid [r, s] st0.exit_stacks
          sessions := dinsert sid s st0.sessions }, Except.ok ())) := by
  unfold MCPClients.connect_body MCPClients.initialize_and_list_tools
  rw [ht, hse, hcc, hi]
  simp only [dinsert_dinsert, Bool.false_eq_true, if_false, dlookup_dinsert_self]

theorem connect_body_list_raise (st : MCPClients) (env : ConnectEnv)
    (sid msg e : String) (r s : Nat) (ht : env.transportOutcome = .ok r)
    (hse : env.sessionOutcome = .ok s) (hcc : env.cancelAtCheck = false)
    (hi : env.initOutcome = .ok ()) (hl : env.listOutcome = .raise e) :
    st.connect_body env sid msg =
      (let st0 := if (dlookup sid st.sessions).isSome
        then (st.disconnect env.denv sid).1 else st
       ((({ st0 with
            exit_stacks := dinsert sid [r, s] st0.exit_stacks
            sessions := dinsert sid s st0.sessions }).disconnect env.denv sid).1,
        Except.error e)) := by
  unfold MCPClients.connect_body MCPClients.initialize_and_list_tools
  rw [ht, hse, hcc, hi, hl]
  simp only [dinsert_dinsert, Bool.false_eq_true, if_false, dlookup_dinsert_self]

theorem connect_body_list_timeout (st : MCPClients) (env : ConnectEnv)
    (sid msg : String) (r s : Nat) (ht : env.transportOutcome = .ok r)
    (hse : env.sessionOutcome = .ok s) (hcc : env.cancelAtCheck = false)
    (hi : env.initOutcome = .ok ()) (hl : env.listOutcome = .timeout) :
    st.connect_body env sid msg =
      (let st0 := if (dlookup sid st.sessions).isSome
        then (st.disconnect env.denv sid).1 else st
       ({ st0 with
          exit_stacks := dinsert sid [r, s] st0.exit_stacks
          sessions := dinsert sid s st0.sessions }, Except.ok ())) := by
  unfold MCPClients.connect_body MCPClients.initialize_and_list_tools
  rw [ht, hse, hcc, hi, hl]
  simp only [dinsert_dinsert, Bool.false_eq_true, if_false, dlookup_dinsert_self]

theorem mem_dinsert (kv : String × α) (k : String) (v : α) (l : List (String × α)) :
    kv ∈ dinsert k v l → kv = (k, v) ∨ kv ∈ l := by
  induction l with
  | nil =>
    intro h
    simp only [dinsert, List.mem_singleton] at h
    left
    exact h
  | cons hd tl ih =>
    intro h
    obtain ⟨k₀, v₀⟩ := hd
    by_cases h0 : k₀ = k
    · subst h0
      rw [dinsert_cons_self] at h
      rcases List.mem_cons.mp h with he | hm
      · left; exact he
      · right; exact List.mem_cons_of_mem _ hm
    · rw [dinsert_cons_ne _ _ _ _ _ h0] at h
      rcases List.mem_cons.mp h with he | hm
      · right
        rw [he]
        exact List.mem_cons_self _ _
      · rcases ih hm with h1 | h2
        · left; exact h1
        · right; exact List.mem_cons_of_mem _ h2

theorem dlookup_mem (k : String) (l : List (String × α)) (v : α)
    (h : dlookup k l = some v) : (k, v) ∈ l := by
  induction l with
  | nil => simp [dlookup] at h
  | cons hd tl ih =>
    obtain ⟨k₀, v₀⟩ := hd
    by_cases h0 : k₀ = k
    · subst h0
      rw [dlookup_cons_self, Option.some_inj] at h
      subst h
      exact List.mem_cons_self _ _
    · rw [dlookup_cons_ne _ _ _ _ h0] at h
      exact List.mem_cons_of_mem _ (ih h)

theorem owned_dinsert (sessions : List (String × Nat))
    (tool_map : List (String × MCPClientTool)) (sid : String) (s : Nat)
    (h : ∀ kv ∈ tool_map, (dlookup kv.2.server_id sessions).isSome) :
    ∀ kv ∈ tool_map, (dlookup kv.2.server_id (dinsert sid s sessions)).isSome := by
  intro kv hkv
  by_cases he : kv.2.server_id = sid
  · rw [he, dlookup_dinsert_self]
    rfl
  · rw [dlookup_dinsert_ne _ _ _ _ he]
    exact h kv hkv

theorem owned_register_foldl (sessions : List (String × Nat)) (sid : String) (s : Nat)
    (ts : List RemoteTool) (hsid : (dlookup sid sessions).isSome) :
    ∀ (tm : List (String × MCPClientTool)),
      (∀ kv ∈ tm, (dlookup kv.2.server_id sessions).isSome) →
      ∀ kv ∈ ts.foldl (fun tm t =>
          dinsert ("mcp_" ++ sid ++ "_" ++ t.name) (mkClientTool sid s t) tm) tm,
        (dlookup kv.2.server_id sessions).isSome := by
  induction ts with
  | nil => intro tm h; exact h
  | cons hd tl ih =>
    intro tm h
    rw [List.foldl_cons]
    apply ih
    intro kv hkv
    rcases mem_dinsert kv _ _ tm hkv with he | hm
    · rw [he]
      exact hsid
    · exact h kv hm

/-- Well-formedness invariant of the manager, maintained by every public
operation: the session keys are distinct and every registered tool's owning
server has a live session. -/
structure Inv (st : MCPClients) : Prop where
  nodupS : (dkeys st.sessions).Nodup
  owned : ∀ kv ∈ st.tool_map, (dlookup kv.2.server_id st.sessions).isSome

theorem inv_init : Inv MCPClients.init := by
  constructor
  · simp [MCPClients.init, dkeys]
  · intro kv hkv
    simp [MCPClients.init] at hkv

theorem inv_disconnect_one (st : MCPClients) (env : DisconnectEnv) (sid : String)
    (h : Inv st) : Inv (st.disconnect_one env sid).1 := by
  by_cases hreg : (dlookup sid st.sessions).isSome
  · rw [disconnect_one_eq st env sid hreg]
    constructor
    · exact nodup_dkeys_dremove sid st.sessions h.nodupS
    · intro kv hkv
      have hmem := List.mem_filter.mp hkv
      have hne : kv.2.server_id ≠ sid := by simpa using hmem.2
      rw [dlookup_dremove_ne _ _ _ hne]
      exact h.owned kv hmem.1
  · rw [Option.not_isSome_iff_eq_none] at hreg
    rw [disconnect_one_not_reg st env sid hreg]
    exact h

theorem inv_disconnect_all_go (env : DisconnectEnv) (ks : List String) :
    ∀ st : MCPClients, Inv st → Inv (MCPClients.disconnect_all_go env ks st).1 := by
  induction ks with
  | nil => intro st h; exact h
  | cons k ks ih =>
    intro st h
    unfold MCPClients.disconnect_all_go
    exact ih _ (inv_disconnect_one st env k h)

theorem inv_disconnect (st : MCPClients) (env : DisconnectEnv) (sid : String)
    (h : Inv st) : Inv (st.disconnect env sid).1 := by
  by_cases hsid : sid ≠ ""
  · rw [disconnect_eq_disconnect_one st env sid hsid]
    exact inv_disconnect_one st env sid h
  · push_neg at hsid
    subst hsid
    unfold MCPClients.disconnect
    rw [if_neg (fun hc => hc rfl)]
    constructor
    · exact (inv_disconnect_all_go env _ st h).nodupS
    · intro kv hkv
      exact absurd hkv (List.not_mem_nil kv)

theorem inv_connect_body (st : MCPClients) (env : ConnectEnv) (sid msg : String)
    (h : Inv st) : Inv (st.connect_body env sid msg).1 := by
  have h0 : Inv (if (dlookup sid st.sessions).isSome
      then (st.disconnect env.denv sid).1 else st) := by
    split
    · exact inv_disconnect st env.denv sid h
    · exact h
  set st0 := if (dlookup sid st.sessions).isSome
    then (st.disconnect env.denv sid).1 else st with hst0
  rcases ht : env.transportOutcome with r | e | _
  · rcases hse : env.sessionOutcome with s | e | _
    · have hInv3 : ∀ rs ss : Nat, Inv { st0 with
          exit_stacks := dinsert sid [rs, ss] st0.exit_stacks
          sessions := dinsert sid ss st0.sessions } := by
        intro rs ss
        constructor
        · exact nodup_dkeys_dinsert sid ss st0.sessions h0.nodupS
        · exact owned_dinsert st0.sessions st0.tool_map sid ss h0.owned
      rcases hcc : env.cancelAtCheck with _ | _
      · rcases hi : env.initOutcome with u | e | _
        · rcases hl : env.listOutcome with ts | e | _
          · rw [connect_body_ok st env sid msg r s ts ht hse hcc hi hl]
            constructor
            · exact nodup_dkeys_dinsert sid s st0.sessions h0.nodupS
            · refine owned_register_foldl _ sid s ts ?_ st0.tool_map ?_
              · rw [dlookup_dinsert_self]
                rfl
              · exact owned_dinsert st0.sessions st0.tool_map sid s h0.owned
          · rw [connect_body_list_raise st env sid msg e r s ht hse hcc hi hl]
            exact inv_disconnect _ env.denv sid (hInv3 r s)
          · rw [connect_body_list_timeout st env sid msg r s ht hse hcc hi hl]
            exact hInv3 r s
        · rw [connect_body_init_raise st env sid msg e r s ht hse hcc hi]
          exact inv_disconnect _ env.denv sid (hInv3 r s)
        · rw [connect_body_init_timeout st env sid msg r s ht hse hcc hi]
          exact hInv3 r s
      · rw [connect_body_cancel st env sid msg r s ht hse hcc]
        exact inv_disconnect _ env.denv sid (hInv3 r s)
    · rw [connect_body_session_raise st env sid msg e r ht hse]
      exact inv_disconnect _ env.denv sid ⟨h0.nodupS, h0.owned⟩
    · rw [connect_body_session_timeout st env sid msg r ht hse]
      exact ⟨h0.nodupS, h0.owned⟩
  · rw [connect_body_transport_raise st env sid msg e ht]
    exact inv_disconnect _ env.denv sid ⟨h0.nodupS, h0.owned⟩
  · rw [connect_body_transport_timeout st env sid msg ht]
    exact ⟨h0.nodupS, h0.owned⟩

theorem inv_connect_sse (st : MCPClients) (env : ConnectEnv)
    (server_url server_id : String) (h : Inv st) :
    Inv (st.connect_sse env server_url server_id).1 := by
  unfold MCPClients.connect_sse
  split
  · exact h
  · exact inv_connect_body st env _ _ h

theorem inv_connect_stdio (st : MCPClients) (env : ConnectEnv)
    (command : String) (args : List String) (server_id : String) (h : Inv st) :
    Inv (st.connect_stdio env command args server_id).1 := by
  unfold MCPClients.connect_stdio
  split
  · exact h
  · exact inv_connect_body st env _ _ h

theorem disconnect_one_sessions (st : MCPClients) (env : DisconnectEnv) (sid : String) :
    (st.disconnect_one env sid).1.sessions = dremove sid st.sessions := by
  by_cases hreg : (dlookup sid st.sessions).isSome
  · rw [disconnect_one_eq st env sid hreg]
  · rw [Option.not_isSome_iff_eq_none] at hreg
    rw [disconnect_one_not_reg st env sid hreg]
    exact (dremove_of_not_mem _ _ ((dlookup_eq_none_iff _ _).mp hreg)).symm

theorem st0_no_sid_tools (st : MCPClients) (denv : DisconnectEnv) (sid : String)
    (hsid : sid ≠ "") (hInv : Inv st) :
    ∀ k v, dlookup k (if (dlookup sid st.sessions).isSome
        then (st.disconnect denv sid).1 else st).tool_map = some v →
      v.server_id ≠ sid := by
  intro k v hkv he
  by_cases hreg : (dlookup sid st.sessions).isSome
  · rw [if_pos hreg, disconnect_eq_disconnect_one st denv sid hsid,
      disconnect_one_eq st denv sid hreg] at hkv
    have hmem := dlookup_mem _ _ _ hkv
    have hfilt := (List.mem_filter.mp hmem).2
    rw [he] at hfilt
    simp at hfilt
  · rw [if_neg hreg] at hkv
    exact hreg (he ▸ hInv.owned (k, v) (dlookup_mem _ _ _ hkv))

theorem st0_sessions_clean (st : MCPClients) (denv : DisconnectEnv) (sid : String)
    (hsid : sid ≠ "") (hInv : Inv st) :
    sid ∉ dkeys (if (dlookup sid st.sessions).isSome
      then (st.disconnect denv sid).1 else st).sessions ∧
    (dkeys (if (dlookup sid st.sessions).isSome
      then (st.disconnect denv sid).1 else st).sessions).Nodup := by
  by_cases hreg : (dlookup sid st.sessions).isSome
  · rw [if_pos hreg, disconnect_eq_disconnect_one st denv sid hsid,
      disconnect_one_eq st denv sid hreg]
    exact ⟨not_mem_dkeys_dremove sid st.sessions hInv.nodupS,
      nodup_dkeys_dremove sid st.sessions hInv.nodupS⟩
  · rw [if_neg hreg]
    constructor
    · rw [← dlookup_isSome_iff]
      exact hreg
    · exact hInv.nodupS

theorem connect_sse_ok_step (st : MCPClients) (env : ConnectEnv) (url sid0 : String)
    (r s : Nat) (ts : List RemoteTool) (hInv : Inv st) (hurl : url ≠ "")
    (ht : env.transportOutcome = .ok r) (hs : env.sessionOutcome = .ok s)
    (hc : env.cancelAtCheck = false) (hi : env.initOutcome = .ok ())
    (hl : env.listOutcome = .ok ts)
    (hn : (ts.map fun t =>
      "mcp_" ++ (if sid0 = "" then url else sid0) ++ "_" ++ t.name).Nodup) :
    ((dkeys (st.connect_sse env url sid0).1.sessions).count
      (if sid0 = "" then url else sid0) = 1) ∧
    (∀ t ∈ ts,
      dlookup ("mcp_" ++ (if sid0 = "" then url else sid0) ++ "_" ++ t.name)
          (st.connect_sse env url sid0).1.tool_map =
        some (mkClientTool (if sid0 = "" then url else sid0) s t)) ∧
    (∀ k v, dlookup k (st.connect_sse env url sid0).1.tool_map = some v →
      v.server_id = (if sid0 = "" then url else sid0) →
      ∃ t ∈ ts, k = "mcp_" ++ (if sid0 = "" then url else sid0) ++ "_" ++ t.name) := by
  have hsid : (if sid0 = "" then url else sid0) ≠ "" := by
    by_cases h0 : sid0 = ""
    · rw [if_pos h0]
      exact hurl
    · rw [if_neg h0]
      exact h0
  have hclean := st0_sessions_clean st env.denv (if sid0 = "" then url else sid0) hsid hInv
  have hnosid := st0_no_sid_tools st env.denv (if sid0 = "" then url else sid0) hsid hInv
  unfold MCPClients.connect_sse
  rw [if_neg hurl, connect_body_ok st env (if sid0 = "" then url else sid0) _ r s ts
    ht hs hc hi hl]
  refine ⟨?_, ?_, ?_⟩
  · show (dkeys (dinsert (if sid0 = "" then url else sid0) s _)).count _ = 1
    rw [dkeys_dinsert_of_not_mem _ _ _ hclean.1, List.count_append]
    rw [List.count_eq_zero.mpr hclean.1]
    simp
  · intro t htm
    exact register_foldl_lookup _ s ts _ hn t htm
  · intro k v hkv he
    rcases register_foldl_lookup_src (if sid0 = "" then url else sid0) s k ts _ v hkv
      with hsrc | hbase
    · exact hsrc
    · exact absurd he (hnosid k v hbase)

/-- One connect call of a sequence: its environment, transport kind and
arguments. -/
inductive CCall where
  | sse (env : ConnectEnv) (url : String) (sid : String)
  | stdio (env : ConnectEnv) (cmd : String) (args : List String) (sid : String)

/-- Run one call against a manager state. -/
def CCall.run (c : CCall) (st : MCPClients) : MCPClients × Except String Unit :=
  match c with
  | .sse env url sid => st.connect_sse env url sid
  | .stdio env cmd args sid => st.connect_stdio env cmd args sid

/-- Run a sequence of connect calls from a state, threading the state. -/
def runCalls (cs : List CCall) (st : MCPClients) : MCPClients :=
  cs.foldl (fun st c => (c.run st).1) st

theorem inv_run (c : CCall) (st : MCPClients) (h : Inv st) : Inv (c.run st).1 := by
  cases c with
  | sse env url sid => exact inv_connect_sse st env url sid h
  | stdio env cmd args sid => exact inv_connect_stdio st env cmd args sid h

theorem inv_runCalls (cs : List CCall) : ∀ st, Inv st → Inv (runCalls cs st) := by
  induction cs with
  | nil => intro st h; exact h
  | cons c cs ih =>
    intro st h
    exact ih _ (inv_run c st h)

theorem connect_stdio_ok_step (st : MCPClients) (env : ConnectEnv)
    (cmd : String) (args : List String) (sid0 : String)
    (r s : Nat) (ts : List RemoteTool) (hInv : Inv st) (hcmd : cmd ≠ "")
    (ht : env.transportOutcome = .ok r) (hs : env.sessionOutcome = .ok s)
    (hc : env.cancelAtCheck = false) (hi : env.initOutcome = .ok ())
    (hl : env.listOutcome = .ok ts)
    (hn : (ts.map fun t =>
      "mcp_" ++ (if sid0 = "" then cmd else sid0) ++ "_" ++ t.name).Nodup) :
    ((dkeys (st.connect_stdio env cmd args sid0).1.sessions).count
      (if sid0 = "" then cmd else sid0) = 1) ∧
    (∀ t ∈ ts,
      dlookup ("mcp_" ++ (if sid0 = "" then cmd else sid0) ++ "_" ++ t.name)
          (st.connect_stdio env cmd args sid0).1.tool_map =
        some (mkClientTool (if sid0 = "" then cmd else sid0) s t)) ∧
    (∀ k v, dlookup k (st.connect_stdio env cmd args sid0).1.tool_map = some v →
      v.server_id = (if sid0 = "" then cmd else sid0) →
      ∃ t ∈ ts, k = "mcp_" ++ (if sid0 = "" then cmd else sid0) ++ "_" ++ t.name) := by
  have hsid : (if sid0 = "" then cmd else sid0) ≠ "" := by
    by_cases h0 : sid0 = ""
    · rw [if_pos h0]
      exact hcmd
    · rw [if_neg h0]
      exact h0
  have hclean := st0_sessions_clean st env.denv (if sid0 = "" then cmd else sid0) hsid hInv
  have hnosid := st0_no_sid_tools st env.denv (if sid0 = "" then cmd else sid0) hsid hInv
  unfold MCPClients.connect_stdio
  rw [if_neg hcmd, connect_body_ok st env (if sid0 = "" then cmd else sid0) _ r s ts
    ht hs hc hi hl]
  refine ⟨?_, ?_, ?_⟩
  · show (dkeys (dinsert (if sid0 = "" then cmd else sid0) s _)).count _ = 1
    rw [dkeys_dinsert_of_not_mem _ _ _ hclean.1, List.count_append]
    rw [List.count_eq_zero.mpr hclean.1]
    simp
  · intro t htm
    exact register_foldl_lookup _ s ts _ hn t htm
  · intro k v hkv he
    rcases register_foldl_lookup_src (if sid0 = "" then cmd else sid0) s k ts _ v hkv
      with hsrc | hbase
    · exact hsrc
    · exact absurd he (hnosid k v hbase)

/-- Effective server id of a connect call, after the source's
`server_id = server_id or <target>` defaulting. -/
def CCall.effSid : CCall → String
  | .sse _ url sid => if sid = "" then url else sid
  | .stdio _ cmd _ sid => if sid = "" then cmd else sid

/-- Connection target of a call: the URL for SSE, the command for stdio. -/
def CCall.target : CCall → String
  | .sse _ url _ => url
  | .stdio _ cmd _ _ => cmd

theorem runCalls_append_one (cs : List CCall) (c : CCall) (st : MCPClients) :
    runCalls (cs ++ [c]) st = (c.run (runCalls cs st)).1 := by
  unfold runCalls
  rw [List.foldl_append]
  rfl

theorem disconnect_no_session (x : MCPClients) (denv : DisconnectEnv) (sid : String)
    (hsid : sid ≠ "") (hn : (dkeys x.sessions).Nodup) :
    dlookup sid (x.disconnect denv sid).1.sessions = none := by
  rw [disconnect_eq_disconnect_one x denv sid hsid, disconnect_one_sessions]
  exact (dlookup_eq_none_iff _ _).mpr (not_mem_dkeys_dremove sid x.sessions hn)

theorem connect_body_error_no_session (st : MCPClients) (env : ConnectEnv)
    (sid msg e : String) (hInv : Inv st) (hsid : sid ≠ "")
    (herr : (st.connect_body env sid msg).2 = .error e) :
    dlookup sid (st.connect_body env sid msg).1.sessions = none := by
  have h0 : Inv (if (dlookup sid st.sessions).isSome
      then (st.disconnect env.denv sid).1 else st) := by
    split
    · exact inv_disconnect st env.denv sid hInv
    · exact hInv
  rcases ht : env.transportOutcome with r | e0 | _
  · rcases hse : env.sessionOutcome with s | e0 | _
    · rcases hcc : env.cancelAtCheck with _ | _
      · rcases hi : env.initOutcome with u | e0 | _
        · rcases hl : env.listOutcome with ts | e0 | _
          · rw [connect_body_ok st env sid msg r s ts ht hse hcc hi hl] at herr
            simp at herr
          · rw [connect_body_list_raise st env sid msg e0 r s ht hse hcc hi hl]
            exact disconnect_no_session _ env.denv sid hsid
              (nodup_dkeys_dinsert sid s _ h0.nodupS)
          · rw [connect_body_list_timeout st env sid msg r s ht hse hcc hi hl] at herr
            simp at herr
        · rw [connect_body_init_raise st env sid msg e0 r s ht hse hcc hi]
          exact disconnect_no_session _ env.denv sid hsid
            (nodup_dkeys_dinsert sid s _ h0.nodupS)
        · rw [connect_body_init_timeout st env sid msg r s ht hse hcc hi] at herr
          simp at herr
      · rw [connect_body_cancel st env sid msg r s ht hse hcc]
        exact disconnect_no_session _ env.denv sid hsid
          (nodup_dkeys_dinsert sid s _ h0.nodupS)
    · rw [connect_body_session_raise st env sid msg e0 r ht hse]
      exact disconnect_no_session _ env.denv sid hsid h0.nodupS
    · rw [connect_body_session_timeout st env sid msg r ht hse] at herr
      simp at herr
  · rw [connect_body_transport_raise st env sid msg e0 ht]
    exact disconnect_no_session _ env.denv sid hsid h0.nodupS
  · rw [connect_body_transport_timeout st env sid msg ht] at herr
    simp at herr

theorem run_error_no_session (c : CCall) (st : MCPClients) (e : String)
    (hInv : Inv st) (htgt : c.target ≠ "")
    (herr : (c.run st).2 = .error e) :
    dlookup c.effSid (c.run st).1.sessions = none := by
  cases c with
  | sse env url sid =>
    have htgt' : url ≠ "" := htgt
    have hsid : (if sid = "" then url else sid) ≠ "" := by
      by_cases h0 : sid = ""
      · rw [if_pos h0]
        exact htgt'
      · rw [if_neg h0]
        exact h0
    show dlookup (if sid = "" then url else sid)
      (st.connect_sse env url sid).1.sessions = none
    have herr' : (st.connect_sse env url sid).2 = .error e := herr
    unfold MCPClients.connect_sse at herr' ⊢
    rw [if_neg htgt'] at herr' ⊢
    exact connect_body_error_no_session st env _ _ e hInv hsid herr'
  | stdio env cmd args sid =>
    have htgt' : cmd ≠ "" := htgt
    have hsid : (if sid = "" then cmd else sid) ≠ "" := by
      by_cases h0 : sid = ""
      · rw [if_pos h0]
        exact htgt'
      · rw [if_neg h0]
        exact h0
    show dlookup (if sid = "" then cmd else sid)
      (st.connect_stdio env cmd args sid).1.sessions = none
    have herr' : (st.connect_stdio env cmd args sid).2 = .error e := herr
    unfold MCPClients.connect_stdio at herr' ⊢
    rw [if_neg htgt'] at herr' ⊢
    exact connect_body_error_no_session st env _ _ e hInv hsid herr'

/-- C2, amended: for every sequence of connect calls from a fresh manager,
if the final call for the serverId fully succeeds — over either transport,
discovering tools `ts` with distinct namespaced names — then afterwards the
manager holds exactly one live session under that id and the tool registry's
entries for that id are exactly the tools discovered by that final connect;
and if the final call fails during setup (its URL or command being
non-empty, so it gets past argument validation), the manager holds no live
session under the id, because the failing connect tears the previous one
down first. -/
theorem C2_amended_holds (cs : List CCall) (env : ConnectEnv)
    (url cmd : String) (args : List String) (sid0 : String)
    (r s : Nat) (ts : List RemoteTool) (hurl : url ≠ "") (hcmd : cmd ≠ "")
    (ht : env.transportOutcome = .ok r) (hs : env.sessionOutcome = .ok s)
    (hc : env.cancelAtCheck = false) (hi : env.initOutcome = .ok ())
    (hl : env.listOutcome = .ok ts)
    (hn1 : (ts.map fun t =>
      "mcp_" ++ (if sid0 = "" then url else sid0) ++ "_" ++ t.name).Nodup)
    (hn2 : (ts.map fun t =>
      "mcp_" ++ (if sid0 = "" then cmd else sid0) ++ "_" ++ t.name).Nodup) :
    (((dkeys (runCalls (cs ++ [CCall.sse env url sid0]) MCPClients.init).sessions).count
        (if sid0 = "" then url else sid0) = 1) ∧
      (∀ t ∈ ts,
        dlookup ("mcp_" ++ (if sid0 = "" then url else sid0) ++ "_" ++ t.name)
            (runCalls (cs ++ [CCall.sse env url sid0]) MCPClients.init).tool_map =
          some (mkClientTool (if sid0 = "" then url else sid0) s t)) ∧
      (∀ k v,
        dlookup k (runCalls (cs ++ [CCall.sse env url sid0]) MCPClients.init).tool_map =
          some v →
        v.server_id = (if sid0 = "" then url else sid0) →
        ∃ t ∈ ts, k = "mcp_" ++ (if sid0 = "" then url else sid0) ++ "_" ++ t.name)) ∧
    (((dkeys (runCalls (cs ++ [CCall.stdio env cmd args sid0]) MCPClients.init).sessions).count
        (if sid0 = "" then cmd else sid0) = 1) ∧
      (∀ t ∈ ts,
        dlookup ("mcp_" ++ (if sid0 = "" then cmd else sid0) ++ "_" ++ t.name)
            (runCalls (cs ++ [CCall.stdio env cmd args sid0]) MCPClients.init).tool_map =
          some (mkClientTool (if sid0 = "" then cmd else sid0) s t)) ∧
      (∀ k v,
        dlookup k (runCalls (cs ++ [CCall.stdio env cmd args sid0]) MCPClients.init).tool_map =
          some v →
        v.server_id = (if sid0 = "" then cmd else sid0) →
        ∃ t ∈ ts, k = "mcp_" ++ (if sid0 = "" then cmd else sid0) ++ "_" ++ t.name)) ∧
    (∀ (c : CCall) (e : String), c.target ≠ "" →
      (c.run (runCalls cs MCPClients.init)).2 = .error e →
      dlookup c.effSid (runCalls (cs ++ [c]) MCPClients.init).sessions = none) := by
  have hInvp : Inv (runCalls cs MCPClients.init) := inv_runCalls cs MCPClients.init inv_init
  refine ⟨?_, ?_, ?_⟩
  · rw [runCalls_append_one]
    exact connect_sse_ok_step (runCalls cs MCPClients.init) env url sid0 r s ts
      hInvp hurl ht hs hc hi hl hn1
  · rw [runCalls_append_one]
    exact connect_stdio_ok_step (runCalls cs MCPClients.init) env cmd args sid0 r s ts
      hInvp hcmd ht hs hc hi hl hn2
  · intro c e htgt herr
    rw [runCalls_append_one]
    exact run_error_no_session c (runCalls cs MCPClients.init) e hInvp htgt herr

/-- C2 amended witness: connect to `A` (SSE) discovering `fetch_price`,
then reconnect to `A` discovering `quote`: over either transport for the
final call, exactly one session lives under `A` afterwards and its tools are
exactly the final connect's; and any failing final call for a non-empty
target leaves no session under its id. -/
theorem C2_amended_witness :
    (((dkeys (runCalls ([CCall.sse envOkA "http://a" "A"] ++ [CCall.sse envOkB "http://a" "A"])
        MCPClients.init).sessions).count (if ("A" : String) = "" then "http://a" else "A") = 1) ∧
      (∀ t ∈ [t2],
        dlookup ("mcp_" ++ (if ("A" : String) = "" then "http://a" else "A") ++ "_" ++ t.name)
            (runCalls ([CCall.sse envOkA "http://a" "A"] ++ [CCall.sse envOkB "http://a" "A"])
              MCPClients.init).tool_map =
          some (mkClientTool (if ("A" : String) = "" then "http://a" else "A") 3 t)) ∧
      (∀ k v,
        dlookup k (runCalls ([CCall.sse envOkA "http://a" "A"] ++ [CCall.sse envOkB "http://a" "A"])
          MCPClients.init).tool_map = some v →
        v.server_id = (if ("A" : String) = "" then "http://a" else "A") →
        ∃ t ∈ [t2],
          k = "mcp_" ++ (if ("A" : String) = "" then "http://a" else "A") ++ "_" ++ t.name)) ∧
    (((dkeys (runCalls ([CCall.sse envOkA "http://a" "A"] ++
          [CCall.stdio envOkB "qstock" ["--serve"] "A"])
        MCPClients.init).sessions).count (if ("A" : String) = "" then "qstock" else "A") = 1) ∧
      (∀ t ∈ [t2],
        dlookup ("mcp_" ++ (if ("A" : String) = "" then "qstock" else "A") ++ "_" ++ t.name)
            (runCalls ([CCall.sse envOkA "http://a" "A"] ++
              [CCall.stdio envOkB "qstock" ["--serve"] "A"])
              MCPClients.init).tool_map =
          some (mkClientTool (if ("A" : String) = "" then "qstock" else "A") 3 t)) ∧
      (∀ k v,
        dlookup k (runCalls ([CCall.sse envOkA "http://a" "A"] ++
          [CCall.stdio envOkB "qstock" ["--serve"] "A"])
          MCPClients.init).tool_map = some v →
        v.server_id = (if ("A" : String) = "" then "qstock" else "A") →
        ∃ t ∈ [t2],
          k = "mcp_" ++ (if ("A" : String) = "" then "qstock" else "A") ++ "_" ++ t.name)) ∧
    (∀ (c : CCall) (e : String), c.target ≠ "" →
      (c.run (runCalls [CCall.sse envOkA "http://a" "A"] MCPClients.init)).2 = .error e →
      dlookup c.effSid
        (runCalls ([CCall.sse envOkA "http://a" "A"] ++ [c]) MCPClients.init).sessions = none) :=
  C2_amended_holds [CCall.sse envOkA "http://a" "A"] envOkB "http://a" "qstock" ["--serve"]
    "A" 2 3 [t2] (by decide) (by decide) rfl rfl rfl rfl rfl (by decide) (by decide)

theorem sync_disconnect_one (st : MCPClients) (env : DisconnectEnv) (sid : String)
    (h : st.tools = dvalues st.tool_map) :
    (st.disconnect_one env sid).1.tools = dvalues (st.disconnect_one env sid).1.tool_map := by
  by_cases hreg : (dlookup sid st.sessions).isSome
  · rw [disconnect_one_eq st env sid hreg]
  · rw [Option.not_isSome_iff_eq_none] at hreg
    rw [disconnect_one_not_reg st env sid hreg]
    exact h

theorem sync_disconnect_all_go (env : DisconnectEnv) (ks : List String) :
    ∀ st : MCPClients, st.tools = dvalues st.tool_map →
      (MCPClients.disconnect_all_go env ks st).1.tools =
        dvalues (MCPClients.disconnect_all_go env ks st).1.tool_map := by
  induction ks with
  | nil => intro st h; exact h
  | cons k ks ih =>
    intro st h
    unfold MCPClients.disconnect_all_go
    exact ih _ (sync_disconnect_one st env k h)

theorem sync_disconnect (st : MCPClients) (env : DisconnectEnv) (sid : String)
    (h : st.tools = dvalues st.tool_map) :
    (st.disconnect env sid).1.tools = dvalues (st.disconnect env sid).1.tool_map := by
  by_cases hsid : sid ≠ ""
  · rw [disconnect_eq_disconnect_one st env sid hsid]
    exact sync_disconnect_one st env sid h
  · push_neg at hsid
    subst hsid
    unfold MCPClients.disconnect
    rw [if_neg (fun hc => hc rfl)]
    rfl

theorem sync_connect_body (st : MCPClients) (env : ConnectEnv) (sid msg : String)
    (h : st.tools = dvalues st.tool_map) :
    (st.connect_body env sid msg).1.tools =
      dvalues (st.connect_body env sid msg).1.tool_map := by
  have h0 : (if (dlookup sid st.sessions).isSome
        then (st.disconnect env.denv sid).1 else st).tools =
      dvalues (if (dlookup sid st.sessions).isSome
        then (st.disconnect env.denv sid).1 else st).tool_map := by
    split
    · exact sync_disconnect st env.denv sid h
    · exact h
  rcases ht : env.transportOutcome with r | e | _
  · rcases hse : env.sessionOutcome with s | e | _
    · rcases hcc : env.cancelAtCheck with _ | _
      · rcases hi : env.initOutcome with u | e | _
        · rcases hl : env.listOutcome with ts | e | _
          · rw [connect_body_ok st env sid msg r s ts ht hse hcc hi hl]
          · rw [connect_body_list_raise st env sid msg e r s ht hse hcc hi hl]
            exact sync_disconnect _ env.denv sid h0
          · rw [connect_body_list_timeout st env sid msg r s ht hse hcc hi hl]
            exact h0
        · rw [connect_body_init_raise st env sid msg e r s ht hse hcc hi]
          exact sync_disconnect _ env.denv sid h0
        · rw [connect_body_init_timeout st env sid msg r s ht hse hcc hi]
          exact h0
      · rw [connect_body_cancel st env sid msg r s ht hse hcc]
        exact sync_disconnect _ env.denv sid h0
    · rw [connect_body_session_raise st env sid msg e r ht hse]
      exact sync_disconnect _ env.denv sid h0
    · rw [connect_body_session_timeout st env sid msg r ht hse]
      exact h0
  · rw [connect_body_transport_raise st env sid msg e ht]
    exact sync_disconnect _ env.denv sid h0
  · rw [connect_body_transport_timeout st env sid msg ht]
    exact h0

/-- C10: after every public manager operation — connect_sse, connect_stdio,
disconnect with any id (a specific server or all servers) — completes, the
advertised `tools` tuple equals the value tuple of the `tool_map` dispatch
dictionary, provided the two agreed before the operation (they agree in the
fresh manager, so they agree in every reachable state). -/
theorem C10_sync_invariant (st : MCPClients) (env : ConnectEnv) (denv : DisconnectEnv)
    (server_url command : String) (args : List String) (server_id did : String)
    (h : st.tools = dvalues st.tool_map) :
    ((st.connect_sse env server_url server_id).1.tools =
      dvalues (st.connect_sse env server_url server_id).1.tool_map) ∧
    ((st.connect_stdio env command args server_id).1.tools =
      dvalues (st.connect_stdio env command args server_id).1.tool_map) ∧
    ((st.disconnect denv did).1.tools = dvalues (st.disconnect denv did).1.tool_map) := by
  refine ⟨?_, ?_, ?_⟩
  · unfold MCPClients.connect_sse
    split
    · exact h
    · exact sync_connect_body st env _ _ h
  · unfold MCPClients.connect_stdio
    split
    · exact h
    · exact sync_connect_body st env _ _ h
  · exact sync_disconnect st denv did h

/-- C10 witness: the fresh manager agrees, and after a successful connect to
`A` (SSE), a successful stdio connect, and a disconnect of `B`, the tuple
and the dispatch map still agree. -/
theorem C10_witness :
    ((MCPClients.init.connect_sse envOkA "http://a" "A").1.tools =
      dvalues (MCPClients.init.connect_sse envOkA "http://a" "A").1.tool_map) ∧
    ((MCPClients.init.connect_stdio envOkA "qstock" ["--serve"] "A").1.tools =
      dvalues (MCPClients.init.connect_stdio envOkA "qstock" ["--serve"] "A").1.tool_map) ∧
    ((MCPClients.init.disconnect denv0 "B").1.tools =
      dvalues (MCPClients.init.disconnect denv0 "B").1.tool_map) :=
  C10_sync_invariant MCPClients.init envOkA denv0 "http://a" "qstock" ["--serve"] "A" "B" rfl

theorem mem_dkeys_dremove_of_ne (k' k : String) (l : List (String × α))
    (hne : k' ≠ k) (hm : k' ∈ dkeys l) : k' ∈ dkeys (dremove k l) := by
  rw [← dlookup_isSome_iff] at hm ⊢
  rwa [dlookup_dremove_ne _ _ _ hne]

theorem dkeys_foldl_dremove_subset (ks : List String) :
    ∀ (l : List (String × α)) (k' : String),
      k' ∈ dkeys (ks.foldl (fun l k => dremove k l) l) → k' ∈ dkeys l := by
  induction ks with
  | nil => intro l k' h; exact h
  | cons k ks ih =>
    intro l k' h
    rw [List.foldl_cons] at h
    exact (dkeys_dremove_sublist k l).subset (ih _ k' h)

theorem foldl_dremove_eq_nil (ks : List String) :
    ∀ (l : List (String × α)), (dkeys l).Nodup →
      (∀ k ∈ dkeys l, k ∈ ks) → ks.foldl (fun l k => dremove k l) l = [] := by
  induction ks with
  | nil =>
    intro l _ h
    cases l with
    | nil => rfl
    | cons hd tl => exact absurd (h hd.1 (by simp [dkeys])) (List.not_mem_nil _)
  | cons k ks ih =>
    intro l hn h
    rw [List.foldl_cons]
    refine ih _ (nodup_dkeys_dremove k l hn) ?_
    intro k' hk'
    have hne : k' ≠ k := fun he => (not_mem_dkeys_dremove k l hn) (he ▸ hk')
    have hmem : k' ∈ dkeys l := (dkeys_dremove_sublist k l).subset hk'
    rcases List.mem_cons.mp (h k' hmem) with he | hm
    · exact absurd he hne
    · exact hm

theorem dlookup_foldl_dremove_of_mem (ks : List String) :
    ∀ (l : List (String × α)), (dkeys l).Nodup →
      ∀ k ∈ ks, dlookup k (ks.foldl (fun l k => dremove k l) l) = none := by
  induction ks with
  | nil => intro l _ k h; exact absurd h (List.not_mem_nil _)
  | cons k0 ks ih =>
    intro l hn k hk
    rw [List.foldl_cons]
    by_cases he : k = k0
    · subst he
      rw [dlookup_eq_none_iff]
      intro hc
      exact not_mem_dkeys_dremove k l hn (dkeys_foldl_dremove_subset ks _ k hc)
    · rcases List.mem_cons.mp hk with h1 | h2
      · exact absurd h1 he
      · exact ih _ (nodup_dkeys_dremove k0 l hn) k h2

/-- Server ids in the order their sessions were popped during a teardown
trace. -/
def popIds (tr : List TEvent) : List String :=
  tr.filterMap fun e =>
    match e with
    | .popSession s => some s
    | _ => none

theorem popIds_append (a b : List TEvent) : popIds (a ++ b) = popIds a ++ popIds b := by
  simp [popIds]

theorem disconnect_all_go_fields (env : DisconnectEnv) :
    ∀ (ks : List String) (st : MCPClients), ks.Nodup →
      (∀ k ∈ ks, k ∈ dkeys st.sessions) →
      (MCPClients.disconnect_all_go env ks st).1.sessions =
        ks.foldl (fun l k => dremove k l) st.sessions ∧
      (MCPClients.disconnect_all_go env ks st).1.exit_stacks =
        ks.foldl (fun l k => dremove k l) st.exit_stacks ∧
      popIds (MCPClients.disconnect_all_go env ks st).2 = ks := by
  intro ks
  induction ks with
  | nil =>
    intro st _ _
    exact ⟨rfl, rfl, rfl⟩
  | cons k ks ih =>
    intro st hnodup hmem
    have hreg : (dlookup k st.sessions).isSome :=
      (dlookup_isSome_iff _ _).mpr (hmem k (List.mem_cons_self _ _))
    simp only [List.nodup_cons] at hnodup
    have e1 : (st.disconnect_one env k).1.sessions = dremove k st.sessions :=
      disconnect_one_sessions st env k
    have e2 : (st.disconnect_one env k).1.exit_stacks = dremove k st.exit_stacks := by
      rw [disconnect_one_eq st env k hreg]
    have e3 : popIds (st.disconnect_one env k).2 = [k] := by
      rw [disconnect_one_eq st env k hreg]
      cases dlookup k st.exit_stacks <;> rfl
    obtain ⟨ih1, ih2, ih3⟩ := ih (st.disconnect_one env k).1 hnodup.2 (fun k' hk' => by
      rw [e1]
      exact mem_dkeys_dremove_of_ne k' k _ (fun he => hnodup.1 (he ▸ hk'))
        (hmem k' (List.mem_cons_of_mem _ hk')))
    refine ⟨?_, ?_, ?_⟩
    · rw [List.foldl_cons]
      show (MCPClients.disconnect_all_go env ks (st.disconnect_one env k).1).1.sessions =
        ks.foldl (fun l k => dremove k l) (dremove k st.sessions)
      rw [ih1, e1]
    · rw [List.foldl_cons]
      show (MCPClients.disconnect_all_go env ks (st.disconnect_one env k).1).1.exit_stacks =
        ks.foldl (fun l k => dremove k l) (dremove k st.exit_stacks)
      rw [ih2, e2]
    · show popIds ((st.disconnect_one env k).2 ++
        (MCPClients.disconnect_all_go env ks (st.disconnect_one env k).1).2) = k :: ks
      rw [popIds_append, e3, ih3]
      rfl

theorem mcp_reset_eta (x : MCPClients) (h1 : x.tool_map = []) (h2 : x.tools = []) :
    ({ x with tool_map := [], tools := [] } : MCPClients) = x := by
  cases x with
  | mk se ex tm tl cl =>
    simp only at h1 h2
    rw [h1, h2]

theorem disconnect_all_idem (x : MCPClients) (env : DisconnectEnv)
    (h1 : x.sessions = []) (h2 : x.tool_map = []) (h3 : x.tools = []) :
    x.disconnect env "" = (x, [TEvent.resetAll]) := by
  unfold MCPClients.disconnect
  rw [if_neg (fun hc => hc rfl), h1]
  show ({ x with tool_map := [], tools := [] },
    ([] : List TEvent) ++ [TEvent.resetAll]) = (x, [TEvent.resetAll])
  rw [mcp_reset_eta x h2 h3]
  rfl

/-- C8, amended: disconnect with no serverId tears down every server with a
live session, processing them in ascending sorted order of their ids, and
leaves the sessions map and the tool registry empty; the exit-stacks entry
of every torn-down server is removed, and the exit-stacks map itself is
empty provided every exit-stack entry had a live session (an entry orphaned
by a failed connect is not removed); calling disconnect again immediately
afterwards returns without error and leaves the state unchanged. -/
theorem C8_amended_holds (st : MCPClients) (env : DisconnectEnv)
    (hnodupS : (dkeys st.sessions).Nodup)
    (hnodupE : (dkeys st.exit_stacks).Nodup) :
    (st.disconnect env "").1.sessions = [] ∧
    (st.disconnect env "").1.tool_map = [] ∧
    (st.disconnect env "").1.tools = [] ∧
    (∀ k ∈ dkeys st.sessions, dlookup k (st.disconnect env "").1.exit_stacks = none) ∧
    ((∀ k ∈ dkeys st.exit_stacks, k ∈ dkeys st.sessions) →
      (st.disconnect env "").1.exit_stacks = []) ∧
    List.Sorted (· ≤ ·) (popIds (st.disconnect env "").2) ∧
    (popIds (st.disconnect env "").2).Perm (dkeys st.sessions) ∧
    (st.disconnect env "").1.disconnect env "" =
      ((st.disconnect env "").1, [TEvent.resetAll]) := by
  have hperm : (sortKeys (dkeys st.sessions)).Perm (dkeys st.sessions) :=
    List.perm_insertionSort _ _
  have hsorted : List.Sorted (· ≤ ·) (sortKeys (dkeys st.sessions)) :=
    List.sorted_insertionSort _ _
  have hnodupK : (sortKeys (dkeys st.sessions)).Nodup := hperm.nodup_iff.mpr hnodupS
  have hmemK : ∀ k ∈ sortKeys (dkeys st.sessions), k ∈ dkeys st.sessions :=
    fun k hk => hperm.subset hk
  obtain ⟨g1, g2, g3⟩ :=
    disconnect_all_go_fields env (sortKeys (dkeys st.sessions)) st hnodupK hmemK
  have hd : st.disconnect env "" =
      ({ (MCPClients.disconnect_all_go env (sortKeys (dkeys st.sessions)) st).1 with
          tool_map := [], tools := [] },
        (MCPClients.disconnect_all_go env (sortKeys (dkeys st.sessions)) st).2 ++
          [TEvent.resetAll]) := by
    unfold MCPClients.disconnect
    rw [if_neg (fun hc => hc rfl)]
  have hgsess :
      (MCPClients.disconnect_all_go env (sortKeys (dkeys st.sessions)) st).1.sessions = [] := by
    rw [g1]
    exact foldl_dremove_eq_nil _ _ hnodupS (fun k hk => (hperm.mem_iff).mpr hk)
  have hpop : popIds
      ((MCPClients.disconnect_all_go env (sortKeys (dkeys st.sessions)) st).2 ++
        [TEvent.resetAll]) = sortKeys (dkeys st.sessions) := by
    rw [popIds_append, g3]
    simp [popIds]
  refine ⟨?_, ?_, ?_, ?_, ?_, ?_, ?_, ?_⟩
  · rw [hd]
    exact hgsess
  · rw [hd]
  · rw [hd]
  · intro k hk
    rw [hd]
    show dlookup k
      (MCPClients.disconnect_all_go env (sortKeys (dkeys st.sessions)) st).1.exit_stacks = none
    rw [g2]
    exact dlookup_foldl_dremove_of_mem _ _ hnodupE k (hperm.mem_iff.mpr hk)
  · intro hcov
    rw [hd]
    show (MCPClients.disconnect_all_go env (sortKeys (dkeys st.sessions)) st).1.exit_stacks = []
    rw [g2]
    exact foldl_dremove_eq_nil _ _ hnodupE (fun k hk => hperm.mem_iff.mpr (hcov k hk))
  · rw [hd]
    show List.Sorted (· ≤ ·) (popIds
      ((MCPClients.disconnect_all_go env (sortKeys (dkeys st.sessions)) st).2 ++
        [TEvent.resetAll]))
    rw [hpop]
    exact hsorted
  · rw [hd]
    show (popIds
      ((MCPClients.disconnect_all_go env (sortKeys (dkeys st.sessions)) st).2 ++
        [TEvent.resetAll])).Perm (dkeys st.sessions)
    rw [hpop]
    exact hperm
  · rw [hd]
    exact disconnect_all_idem _ env hgsess rfl rfl

/-- C8 amended witness: for the two-server state `stAB`. -/
theorem C8_amended_witness :
    (stAB.disconnect denv0 "").1.sessions = [] ∧
    (stAB.disconnect denv0 "").1.tool_map = [] ∧
    (stAB.disconnect denv0 "").1.tools = [] ∧
    (∀ k ∈ dkeys stAB.sessions, dlookup k (stAB.disconnect denv0 "").1.exit_stacks = none) ∧
    ((∀ k ∈ dkeys stAB.exit_stacks, k ∈ dkeys stAB.sessions) →
      (stAB.disconnect denv0 "").1.exit_stacks = []) ∧
    List.Sorted (· ≤ ·) (popIds (stAB.disconnect denv0 "").2) ∧
    (popIds (stAB.disconnect denv0 "").2).Perm (dkeys stAB.sessions) ∧
    (stAB.disconnect denv0 "").1.disconnect denv0 "" =
      ((stAB.disconnect denv0 "").1, [TEvent.resetAll]) :=
  C8_amended_holds stAB denv0 (by decide) (by decide)

end FinGenius
